import Mathlib

/-!
Verification of the rate-limit / subscription service core against its
natural-language specification.

The TypeScript source is shallowly embedded:

* A JavaScript `Date` is modelled by its UTC calendar fields (`UTCDate`).
  JS dates are always stored normalized (as epoch milliseconds); the
  field-normalization performed by `Date.UTC(...)` and the `setUTC*`
  mutators is modelled by `dateUTC`.
* The only non-closed-form part of `Date.UTC` normalization is the day
  field.  `dateUTC` performs a single month borrow/carry, which is exact
  for day values at most one month out of range; every construction in
  the embedded module passes a day in `[0, 32]` and so stays well inside
  that range.
* The Postgres `rate_limit_counters` table is modelled by a list of rows;
  `select … limit 1` / `update by id` / `insert` become find-first /
  update-first / append.
* `undefined` limits (unlimited) become `Option Int`; the JS number
  arithmetic on counts and limits is integer arithmetic here.
-/

/-- UTC calendar fields of a JS `Date` (month is 0-indexed as in JS). -/
structure UTCDate where
  year : Int
  month : Int
  day : Int
  hour : Int
  minute : Int
  second : Int
  ms : Int
deriving DecidableEq, Repr

/-- Gregorian leap-year rule (as implemented by the JS `Date` calendar). -/
def isLeapYear (y : Int) : Bool :=
  (y % 4 == 0 && y % 100 != 0) || y % 400 == 0

/-- Number of days of 0-indexed month `m` of year `y` (proleptic Gregorian
calendar; this is the month-length table underlying JS `Date`.  The source
computes it as `new Date(Date.UTC(y, m + 1, 0)).getUTCDate()`). -/
def daysInMonth (y m : Int) : Int :=
  if m = 1 then (if isLeapYear y then 29 else 28)
  else if m = 3 || m = 5 || m = 8 || m = 10 then 30
  else 31

/-- Model of `Date.UTC(y, m, d, hh, mi, ss, msec)` field normalization.
Sub-day fields are normalized by exact floor division (`Int` `/` and `%`
are floor division for the positive divisors used here, matching JS); the
day is normalized by a single month borrow/carry, exact for the argument
ranges this module produces (day in `[0, 32]`, hour in `[0, 24]`). -/
def dateUTC (y m d hh mi ss msec : Int) : UTCDate :=
  let ss1 := ss + msec / 1000
  let ms1 := msec % 1000
  let mi1 := mi + ss1 / 60
  let ss2 := ss1 % 60
  let hh1 := hh + mi1 / 60
  let mi2 := mi1 % 60
  let d1 := d + hh1 / 24
  let hh2 := hh1 % 24
  let y1 := y + m / 12
  let m1 := m % 12
  if d1 < 1 then
    let y2 := if m1 = 0 then y1 - 1 else y1
    let m2 := if m1 = 0 then 11 else m1 - 1
    ⟨y2, m2, d1 + daysInMonth y2 m2, hh2, mi2, ss2, ms1⟩
  else if d1 > daysInMonth y1 m1 then
    let y2 := if m1 = 11 then y1 + 1 else y1
    let m2 := if m1 = 11 then 0 else m1 + 1
    ⟨y2, m2, d1 - daysInMonth y1 m1, hh2, mi2, ss2, ms1⟩
  else ⟨y1, m1, d1, hh2, mi2, ss2, ms1⟩

/-- A `UTCDate` whose fields are normalized, i.e. the UTC field view of an
actual JS `Date` value. -/
def isValidDT (t : UTCDate) : Bool :=
  0 ≤ t.month && t.month ≤ 11 && 1 ≤ t.day && t.day ≤ daysInMonth t.year t.month &&
  0 ≤ t.hour && t.hour ≤ 23 && 0 ≤ t.minute && t.minute ≤ 59 &&
  0 ≤ t.second && t.second ≤ 59 && 0 ≤ t.ms && t.ms ≤ 999

/-- Strictly monotone linear encoding of the calendar fields: on normalized
dates it orders exactly as the epoch-millisecond value of the JS `Date`
(each field's range is strictly below its radix). -/
def dtCode (t : UTCDate) : Int :=
  (((((t.year * 12 + t.month) * 32 + t.day) * 24 + t.hour) * 60 + t.minute) * 60 + t.second) * 1000 + t.ms

/-- Chronological order on dates, `a <= b` (JS `Date` comparison). -/
def dtLe (a b : UTCDate) : Prop := dtCode a ≤ dtCode b

/-- Chronological strict order on dates, `a < b` (JS `Date` comparison). -/
def dtLt (a b : UTCDate) : Prop := dtCode a < dtCode b

/-- Boolean strict order, models the JS expression `a < b` on two dates. -/
def dtLtb (a b : UTCDate) : Bool := decide (dtCode a < dtCode b)

instance : DecidablePred (fun p : UTCDate × UTCDate => dtLe p.1 p.2) := by
  intro p; unfold dtLe; infer_instance

-- ============================================================================
-- Period Calculator (src utils/time)
-- ============================================================================

/-- `getCurrentHourStart`: `now` truncated to the top of its UTC hour. -/
def getCurrentHourStart (now : UTCDate) : UTCDate :=
  dateUTC now.year now.month now.day now.hour 0 0 0

/-- `getNextHourStart`: copies the current hour start and applies
`setUTCHours(h + 1)`; since minute/second/ms are zero this is
`Date.UTC(y, m, d, h + 1, 0, 0, 0)`. -/
def getNextHourStart (now : UTCDate) : UTCDate :=
  let c := getCurrentHourStart now
  dateUTC c.year c.month c.day (c.hour + 1) 0 0 0

/-- `getCurrentDayStart`: `now` truncated to UTC midnight. -/
def getCurrentDayStart (now : UTCDate) : UTCDate :=
  dateUTC now.year now.month now.day 0 0 0 0

/-- `getNextDayStart`: copies the current day start and applies
`setUTCDate(d + 1)`. -/
def getNextDayStart (now : UTCDate) : UTCDate :=
  let c := getCurrentDayStart now
  dateUTC c.year c.month (c.day + 1) 0 0 0 0

/-- `getSubscriptionMonthStart` from the source, line for line.  The
source's `new Date(Date.UTC(y, m + 1, 0)).getUTCDate()` is
`(dateUTC y (m + 1) 0 0 0 0 0).day`. -/
def getSubscriptionMonthStart (subscriptionStartedAt : Option UTCDate) (now : UTCDate) : UTCDate :=
  match subscriptionStartedAt with
  | none => dateUTC now.year now.month 1 0 0 0 0
  | some anchor =>
    let startDay := anchor.day
    let nowYear := now.year
    let nowMonth := now.month
    let nowDay := now.day
    let lastDayOfMonth := (dateUTC nowYear (nowMonth + 1) 0 0 0 0 0).day
    let effectiveStartDay := min startDay lastDayOfMonth
    if nowDay ≥ effectiveStartDay then
      dateUTC nowYear nowMonth effectiveStartDay 0 0 0 0
    else
      let prevMonth := if nowMonth = 0 then (11 : Int) else nowMonth - 1
      let prevYear := if nowMonth = 0 then nowYear - 1 else nowYear
      let lastDayOfPrevMonth := (dateUTC prevYear (prevMonth + 1) 0 0 0 0 0).day
      let effectivePrevStartDay := min startDay lastDayOfPrevMonth
      dateUTC prevYear prevMonth effectivePrevStartDay 0 0 0 0

/-- `getNextSubscriptionMonthStart` from the source: advance one month from
the current subscription-month start, clamping the day again. -/
def getNextSubscriptionMonthStart (subscriptionStartedAt : Option UTCDate) (now : UTCDate) : UTCDate :=
  let currentMonthStart := getSubscriptionMonthStart subscriptionStartedAt now
  match subscriptionStartedAt with
  | none =>
    dateUTC currentMonthStart.year (currentMonthStart.month + 1) 1 0 0 0 0
  | some anchor =>
    let startDay := anchor.day
    let nextMonth := currentMonthStart.month + 1
    let nextYear := if nextMonth > 11 then currentMonthStart.year + 1 else currentMonthStart.year
    let normalizedMonth := nextMonth % 12
    let lastDayOfNextMonth := (dateUTC nextYear (normalizedMonth + 1) 0 0 0 0 0).day
    let effectiveStartDay := min startDay lastDayOfNextMonth
    dateUTC nextYear normalizedMonth effectiveStartDay 0 0 0 0

/-- `getNextMonthReset` (calendar month, anchor-free). -/
def getNextMonthReset (now : UTCDate) : UTCDate :=
  dateUTC now.year (now.month + 1) 1 0 0 0 0

-- ============================================================================
-- Basic facts about the calendar model
-- ============================================================================

theorem daysInMonth_bounds (y m : Int) : 28 ≤ daysInMonth y m ∧ daysInMonth y m ≤ 31 := by
  unfold daysInMonth
  split
  · split <;> omega
  · split <;> omega

/-- `dateUTC` is the identity on already-normalized fields. -/
theorem dateUTC_id (y m d hh mi ss msec : Int)
    (hm : 0 ≤ m ∧ m ≤ 11) (hd : 1 ≤ d ∧ d ≤ daysInMonth y m)
    (hh' : 0 ≤ hh ∧ hh ≤ 23) (hmi : 0 ≤ mi ∧ mi ≤ 59)
    (hss : 0 ≤ ss ∧ ss ≤ 59) (hms : 0 ≤ msec ∧ msec ≤ 999) :
    dateUTC y m d hh mi ss msec = ⟨y, m, d, hh, mi, ss, msec⟩ := by
  have e9 : m / 12 = 0 := by omega
  have e10 : m % 12 = m := by omega
  unfold dateUTC
  simp only [e9, e10, add_zero]
  rw [if_neg (by omega), if_neg (by omega)]
  simp only [UTCDate.mk.injEq, true_and, and_true]
  omega

/-- The source's last-day-of-month trick: `Date.UTC(y, m + 1, 0)` lands on
the last day of month `m`. -/
theorem dateUTC_lastDay (y m : Int) (hm : 0 ≤ m ∧ m ≤ 11) :
    dateUTC y (m + 1) 0 0 0 0 0 = ⟨y, m, daysInMonth y m, 0, 0, 0, 0⟩ := by
  by_cases h11 : m = 11
  · subst h11
    unfold dateUTC
    norm_num
  · have e9 : (m + 1) / 12 = 0 := by omega
    have e10 : (m + 1) % 12 = m + 1 := by omega
    have hne : ¬(m + 1 = 0) := by omega
    have hm1 : m + 1 - 1 = m := by omega
    unfold dateUTC
    simp only [e9, e10, add_zero]
    rw [if_pos (by omega)]
    simp only [if_neg hne, hm1]
    simp only [UTCDate.mk.injEq, true_and, and_true]
    omega

/-- The spec's scenario S4: short-month clamping of a Jan 31 anchor. -/
theorem scenario_S4_short_month_clamp :
    getSubscriptionMonthStart (some ⟨2025, 0, 31, 0, 0, 0, 0⟩) ⟨2025, 1, 15, 10, 0, 0, 0⟩
        = ⟨2025, 0, 31, 0, 0, 0, 0⟩ ∧
    getSubscriptionMonthStart (some ⟨2025, 0, 31, 0, 0, 0, 0⟩) ⟨2025, 1, 28, 0, 0, 0, 0⟩
        = ⟨2025, 1, 28, 0, 0, 0, 0⟩ ∧
    getNextSubscriptionMonthStart (some ⟨2025, 0, 31, 0, 0, 0, 0⟩) ⟨2025, 1, 15, 10, 0, 0, 0⟩
        = ⟨2025, 1, 28, 0, 0, 0, 0⟩ := by
  refine ⟨by decide, by decide, by decide⟩

/-- Hour truncation and hour/day rollover, as in the repository's time
tests. -/
theorem scenario_hour_day_rollover :
    getCurrentHourStart ⟨2025, 5, 15, 14, 30, 45, 123⟩ = ⟨2025, 5, 15, 14, 0, 0, 0⟩ ∧
    getNextHourStart ⟨2025, 5, 15, 23, 30, 45, 123⟩ = ⟨2025, 5, 16, 0, 0, 0, 0⟩ ∧
    getNextDayStart ⟨2024, 11, 31, 5, 0, 0, 0⟩ = ⟨2025, 0, 1, 0, 0, 0, 0⟩ := by
  refine ⟨by decide, by decide, by decide⟩

/-- Unfolded view of date validity. -/
theorem isValidDT_iff (t : UTCDate) : isValidDT t = true ↔
    (0 ≤ t.month ∧ t.month ≤ 11 ∧ 1 ≤ t.day ∧ t.day ≤ daysInMonth t.year t.month ∧
     0 ≤ t.hour ∧ t.hour ≤ 23 ∧ 0 ≤ t.minute ∧ t.minute ≤ 59 ∧
     0 ≤ t.second ∧ t.second ≤ 59 ∧ 0 ≤ t.ms ∧ t.ms ≤ 999) := by
  unfold isValidDT
  simp [Bool.and_eq_true, decide_eq_true_eq, and_assoc]

/-- Validity of an optional anchor date. -/
def anchorValid : Option UTCDate → Bool
  | none => true
  | some a => isValidDT a

-- ============================================================================
-- C1: spec-side formulation of the subscription-month algorithm
-- ============================================================================

/-- The spec's *effective day in month (y, m)*: `E(y,m) = min(D, L(y,m))`. -/
def effectiveDay (D y m : Int) : Int := min D (daysInMonth y m)

/-- The subscription-month start exactly as the specification words it:
midnight UTC of `(Y, M, E(Y,M))` if `d >= E(Y,M)`, else of the previous
month (with year rollover) at its effective day; first of the current
calendar month when the anchor is absent. -/
def subscriptionMonthStartSpec (anchor : Option UTCDate) (now : UTCDate) : UTCDate :=
  match anchor with
  | none => ⟨now.year, now.month, 1, 0, 0, 0, 0⟩
  | some a =>
    if now.day ≥ effectiveDay a.day now.year now.month then
      ⟨now.year, now.month, effectiveDay a.day now.year now.month, 0, 0, 0, 0⟩
    else
      let py := if now.month = 0 then now.year - 1 else now.year
      let pm := if now.month = 0 then (11 : Int) else now.month - 1
      ⟨py, pm, effectiveDay a.day py pm, 0, 0, 0, 0⟩


/-- Month normalization in `dateUTC` is exact for every month argument;
only the day must already be in range for the target month. -/
theorem dateUTC_norm (y m d hh mi ss msec : Int)
    (hd : 1 ≤ d ∧ d ≤ daysInMonth (y + m / 12) (m % 12))
    (hh' : 0 ≤ hh ∧ hh ≤ 23) (hmi : 0 ≤ mi ∧ mi ≤ 59)
    (hss : 0 ≤ ss ∧ ss ≤ 59) (hms : 0 ≤ msec ∧ msec ≤ 999) :
    dateUTC y m d hh mi ss msec = ⟨y + m / 12, m % 12, d, hh, mi, ss, msec⟩ := by
  unfold dateUTC
  rw [if_neg (by omega), if_neg (by omega)]
  simp only [UTCDate.mk.injEq, true_and, and_true]
  omega

/-- The spec-side subscription-month start is itself a normalized date. -/
theorem subscriptionMonthStartSpec_valid (anchor : Option UTCDate) (now : UTCDate)
    (ha : anchorValid anchor = true) (hn : isValidDT now = true) :
    isValidDT (subscriptionMonthStartSpec anchor now) = true := by
  obtain ⟨hm0, hm1, hd0, hd1, -⟩ := (isValidDT_iff now).mp hn
  match anchor with
  | none =>
    unfold subscriptionMonthStartSpec
    rw [isValidDT_iff]
    have := daysInMonth_bounds now.year now.month
    dsimp only
    omega
  | some a =>
    obtain ⟨-, -, had0, had1, -⟩ := (isValidDT_iff a).mp ha
    unfold subscriptionMonthStartSpec effectiveDay
    dsimp only
    by_cases hge : now.day ≥ min a.day (daysInMonth now.year now.month)
    · rw [if_pos hge, isValidDT_iff]
      have := daysInMonth_bounds now.year now.month
      dsimp only
      omega
    · rw [if_neg hge]
      by_cases h0 : now.month = 0
      · simp only [if_pos h0]
        rw [isValidDT_iff]
        have := daysInMonth_bounds (now.year - 1) 11
        dsimp only
        omega
      · simp only [if_neg h0]
        rw [isValidDT_iff]
        have := daysInMonth_bounds now.year (now.month - 1)
        dsimp only
        omega

/-- The spec-side subscription-month start is idempotent (no hypotheses
needed: the construction fixes its own output). -/
theorem subscriptionMonthStartSpec_idem (anchor : Option UTCDate) (now : UTCDate) :
    subscriptionMonthStartSpec anchor (subscriptionMonthStartSpec anchor now)
      = subscriptionMonthStartSpec anchor now := by
  match anchor with
  | none => rfl
  | some a =>
    unfold subscriptionMonthStartSpec effectiveDay
    dsimp only
    by_cases hge : now.day ≥ min a.day (daysInMonth now.year now.month)
    · rw [if_pos hge]
      dsimp only
      rw [if_pos (le_refl _)]
    · rw [if_neg hge]
      by_cases h0 : now.month = 0
      · simp only [if_pos h0]
        rw [if_pos (le_refl _)]
      · simp only [if_neg h0]
        rw [if_pos (le_refl _)]

/-- Shared helper: the source function agrees with the spec-side form
(same content as the C1 theorem, restated for reuse). -/
theorem getSubscriptionMonthStart_eq_spec (anchor : Option UTCDate) (now : UTCDate)
    (ha : anchorValid anchor = true) (hn : isValidDT now = true) :
    getSubscriptionMonthStart anchor now = subscriptionMonthStartSpec anchor now := by
  obtain ⟨hm0, hm1, hd0, hd1, -⟩ := (isValidDT_iff now).mp hn
  match anchor with
  | none =>
    unfold getSubscriptionMonthStart subscriptionMonthStartSpec
    exact dateUTC_id now.year now.month 1 0 0 0 0 ⟨hm0, hm1⟩
      ⟨le_refl 1, le_trans (by omega) (daysInMonth_bounds now.year now.month).1⟩
      (by omega) (by omega) (by omega) (by omega)
  | some a =>
    obtain ⟨-, -, had0, had1, -⟩ := (isValidDT_iff a).mp ha
    unfold getSubscriptionMonthStart subscriptionMonthStartSpec effectiveDay
    dsimp only
    rw [dateUTC_lastDay now.year now.month ⟨hm0, hm1⟩]
    dsimp only
    by_cases hge : now.day ≥ min a.day (daysInMonth now.year now.month)
    · rw [if_pos hge, if_pos hge]
      have hbd := daysInMonth_bounds now.year now.month
      exact dateUTC_id _ _ _ 0 0 0 0 ⟨hm0, hm1⟩ ⟨by omega, by omega⟩
        (by omega) (by omega) (by omega) (by omega)
    · rw [if_neg hge, if_neg hge]
      by_cases h0 : now.month = 0
      · simp only [if_pos h0]
        rw [dateUTC_lastDay (now.year - 1) 11 ⟨by omega, by omega⟩]
        dsimp only
        have hbd := daysInMonth_bounds (now.year - 1) 11
        exact dateUTC_id _ _ _ 0 0 0 0 ⟨by omega, by omega⟩ ⟨by omega, by omega⟩
          (by omega) (by omega) (by omega) (by omega)
      · simp only [if_neg h0]
        rw [dateUTC_lastDay now.year (now.month - 1) ⟨by omega, by omega⟩]
        dsimp only
        have hbd := daysInMonth_bounds now.year (now.month - 1)
        exact dateUTC_id _ _ _ 0 0 0 0 ⟨by omega, by omega⟩ ⟨by omega, by omega⟩
          (by omega) (by omega) (by omega) (by omega)

/-- **C1.** For every valid (or absent) anchor and valid instant `now`,
`getSubscriptionMonthStart` returns exactly the instant the specification
describes: midnight UTC of `(Y, M, E(Y,M))` when `d ≥ E(Y,M)`, otherwise
midnight UTC of the previous month at its effective day, and the first of
the current calendar month when the anchor is absent. -/
theorem C1_getSubscriptionMonthStart_matches_spec
    (anchor : Option UTCDate) (now : UTCDate)
    (ha : anchorValid anchor = true) (hn : isValidDT now = true) :
    getSubscriptionMonthStart anchor now = subscriptionMonthStartSpec anchor now :=
  getSubscriptionMonthStart_eq_spec anchor now ha hn

/-- Witness for C1 at the spec's scenario S4 input. -/
theorem C1_getSubscriptionMonthStart_matches_spec_witness :
    anchorValid (some ⟨2025, 0, 31, 0, 0, 0, 0⟩) = true ∧
    isValidDT ⟨2025, 1, 15, 10, 0, 0, 0⟩ = true ∧
    getSubscriptionMonthStart (some ⟨2025, 0, 31, 0, 0, 0, 0⟩) ⟨2025, 1, 15, 10, 0, 0, 0⟩
      = subscriptionMonthStartSpec (some ⟨2025, 0, 31, 0, 0, 0, 0⟩) ⟨2025, 1, 15, 10, 0, 0, 0⟩ :=
  ⟨by decide, by decide,
    C1_getSubscriptionMonthStart_matches_spec _ _ (by decide) (by decide)⟩

/-- The source subscription-month start is idempotent on valid inputs. -/
theorem getSubscriptionMonthStart_idem (anchor : Option UTCDate) (now : UTCDate)
    (ha : anchorValid anchor = true) (hn : isValidDT now = true) :
    getSubscriptionMonthStart anchor (getSubscriptionMonthStart anchor now)
      = getSubscriptionMonthStart anchor now := by
  rw [getSubscriptionMonthStart_eq_spec anchor now ha hn,
    getSubscriptionMonthStart_eq_spec anchor _ ha
      (subscriptionMonthStartSpec_valid anchor now ha hn),
    subscriptionMonthStartSpec_idem]

/-- On a normalized date, truncating to the hour just zeroes the sub-hour
fields. -/
theorem getCurrentHourStart_eq (t : UTCDate) (ht : isValidDT t = true) :
    getCurrentHourStart t = ⟨t.year, t.month, t.day, t.hour, 0, 0, 0⟩ := by
  obtain ⟨hm0, hm1, hd0, hd1, hh0, hh1, -⟩ := (isValidDT_iff t).mp ht
  exact dateUTC_id _ _ _ _ 0 0 0 ⟨hm0, hm1⟩ ⟨hd0, hd1⟩ ⟨hh0, hh1⟩
    (by omega) (by omega) (by omega)

/-- Truncating to the hour is idempotent on normalized dates. -/
theorem getCurrentHourStart_idem (t : UTCDate) (ht : isValidDT t = true) :
    getCurrentHourStart (getCurrentHourStart t) = getCurrentHourStart t := by
  obtain ⟨hm0, hm1, hd0, hd1, hh0, hh1, -⟩ := (isValidDT_iff t).mp ht
  rw [getCurrentHourStart_eq t ht]
  exact dateUTC_id _ _ _ _ 0 0 0 ⟨hm0, hm1⟩ ⟨hd0, hd1⟩ ⟨hh0, hh1⟩
    (by omega) (by omega) (by omega)

/-- On a normalized date, truncating to midnight just zeroes the
sub-day fields. -/
theorem getCurrentDayStart_eq (t : UTCDate) (ht : isValidDT t = true) :
    getCurrentDayStart t = ⟨t.year, t.month, t.day, 0, 0, 0, 0⟩ := by
  obtain ⟨hm0, hm1, hd0, hd1, -⟩ := (isValidDT_iff t).mp ht
  exact dateUTC_id _ _ _ 0 0 0 0 ⟨hm0, hm1⟩ ⟨hd0, hd1⟩
    (by omega) (by omega) (by omega) (by omega)

/-- Truncating to midnight is idempotent on normalized dates. -/
theorem getCurrentDayStart_idem (t : UTCDate) (ht : isValidDT t = true) :
    getCurrentDayStart (getCurrentDayStart t) = getCurrentDayStart t := by
  obtain ⟨hm0, hm1, hd0, hd1, -⟩ := (isValidDT_iff t).mp ht
  rw [getCurrentDayStart_eq t ht]
  exact dateUTC_id _ _ _ 0 0 0 0 ⟨hm0, hm1⟩ ⟨hd0, hd1⟩
    (by omega) (by omega) (by omega) (by omega)

/-- **C7.** Period contiguity: computing the next period start from the
current period start gives the same boundary as computing it from `t`,
for the hourly, daily, and subscription-month periods. -/
theorem C7_period_contiguity (t : UTCDate) (anchor : Option UTCDate)
    (ht : isValidDT t = true) (ha : anchorValid anchor = true) :
    getNextHourStart (getCurrentHourStart t) = getNextHourStart t ∧
    getNextDayStart (getCurrentDayStart t) = getNextDayStart t ∧
    getNextSubscriptionMonthStart anchor (getSubscriptionMonthStart anchor t)
      = getNextSubscriptionMonthStart anchor t := by
  refine ⟨?_, ?_, ?_⟩
  · unfold getNextHourStart
    rw [getCurrentHourStart_idem t ht]
  · unfold getNextDayStart
    rw [getCurrentDayStart_idem t ht]
  · unfold getNextSubscriptionMonthStart
    rw [getSubscriptionMonthStart_idem anchor t ha ht]

/-- Witness for C7 at a concrete late-December instant. -/
theorem C7_period_contiguity_witness :
    isValidDT ⟨2024, 11, 31, 23, 59, 59, 999⟩ = true ∧
    anchorValid (some ⟨2025, 0, 31, 0, 0, 0, 0⟩) = true ∧
    (getNextHourStart (getCurrentHourStart ⟨2024, 11, 31, 23, 59, 59, 999⟩)
        = getNextHourStart ⟨2024, 11, 31, 23, 59, 59, 999⟩ ∧
      getNextDayStart (getCurrentDayStart ⟨2024, 11, 31, 23, 59, 59, 999⟩)
        = getNextDayStart ⟨2024, 11, 31, 23, 59, 59, 999⟩ ∧
      getNextSubscriptionMonthStart (some ⟨2025, 0, 31, 0, 0, 0, 0⟩)
          (getSubscriptionMonthStart (some ⟨2025, 0, 31, 0, 0, 0, 0⟩) ⟨2024, 11, 31, 23, 59, 59, 999⟩)
        = getNextSubscriptionMonthStart (some ⟨2025, 0, 31, 0, 0, 0, 0⟩) ⟨2024, 11, 31, 23, 59, 59, 999⟩) :=
  ⟨by decide, by decide,
    C7_period_contiguity ⟨2024, 11, 31, 23, 59, 59, 999⟩ (some ⟨2025, 0, 31, 0, 0, 0, 0⟩)
      (by decide) (by decide)⟩

/-- Spec-side description of the next subscription-month start as a
function of the current subscription-month start `s` and the anchor:
one month later (with year rollover), day clamped to the new month. -/
def nextOfSpec (anchor : Option UTCDate) (s : UTCDate) : UTCDate :=
  match anchor with
  | none =>
    if s.month = 11 then ⟨s.year + 1, 0, 1, 0, 0, 0, 0⟩
    else ⟨s.year, s.month + 1, 1, 0, 0, 0, 0⟩
  | some a =>
    if s.month = 11 then
      ⟨s.year + 1, 0, min a.day (daysInMonth (s.year + 1) 0), 0, 0, 0, 0⟩
    else
      ⟨s.year, s.month + 1, min a.day (daysInMonth s.year (s.month + 1)), 0, 0, 0, 0⟩

/-- The source's next-month function equals the spec-side advance applied
to the current month start. -/
theorem getNextSubscriptionMonthStart_eq (anchor : Option UTCDate) (now : UTCDate)
    (ha : anchorValid anchor = true) (hn : isValidDT now = true) :
    getNextSubscriptionMonthStart anchor now
      = nextOfSpec anchor (getSubscriptionMonthStart anchor now) := by
  have hcv : isValidDT (getSubscriptionMonthStart anchor now) = true := by
    rw [getSubscriptionMonthStart_eq_spec anchor now ha hn]
    exact subscriptionMonthStartSpec_valid anchor now ha hn
  match anchor with
  | none =>
    unfold getNextSubscriptionMonthStart nextOfSpec
    dsimp only
    generalize hgen : getSubscriptionMonthStart none now = c
    rw [hgen] at hcv
    obtain ⟨hcm0, hcm1, hcd0, hcd1, -⟩ := (isValidDT_iff c).mp hcv
    by_cases h11 : c.month = 11
    · rw [if_pos h11, h11]
      norm_num
      have hb := daysInMonth_bounds (c.year + 1) 0
      have h := dateUTC_norm c.year 12 1 0 0 0 0 (by norm_num; omega)
        (by omega) (by omega) (by omega)
      norm_num at h
      exact h
    · rw [if_neg h11]
      have hb := daysInMonth_bounds c.year (c.month + 1)
      exact dateUTC_id c.year (c.month + 1) 1 0 0 0 0 ⟨by omega, by omega⟩
        ⟨by omega, by omega⟩ (by omega) (by omega) (by omega) (by omega)
  | some a =>
    obtain ⟨-, -, had0, had1, -⟩ := (isValidDT_iff a).mp ha
    unfold getNextSubscriptionMonthStart nextOfSpec
    dsimp only
    generalize hgen : getSubscriptionMonthStart (some a) now = c
    rw [hgen] at hcv
    obtain ⟨hcm0, hcm1, hcd0, hcd1, -⟩ := (isValidDT_iff c).mp hcv
    by_cases h11 : c.month = 11
    · rw [if_pos h11]
      rw [if_pos (show c.month + 1 > 11 by omega)]
      have hmod : (c.month + 1) % 12 = 0 := by omega
      rw [hmod]
      rw [dateUTC_lastDay (c.year + 1) 0 ⟨by omega, by omega⟩]
      dsimp only
      have hb := daysInMonth_bounds (c.year + 1) 0
      exact dateUTC_id _ _ _ 0 0 0 0 ⟨by omega, by omega⟩ ⟨by omega, by omega⟩
        (by omega) (by omega) (by omega) (by omega)
    · rw [if_neg h11]
      rw [if_neg (show ¬(c.month + 1 > 11) by omega)]
      have hmod : (c.month + 1) % 12 = c.month + 1 := by omega
      rw [hmod]
      rw [dateUTC_lastDay c.year (c.month + 1) ⟨by omega, by omega⟩]
      dsimp only
      have hb := daysInMonth_bounds c.year (c.month + 1)
      exact dateUTC_id _ _ _ 0 0 0 0 ⟨by omega, by omega⟩ ⟨by omega, by omega⟩
        (by omega) (by omega) (by omega) (by omega)

/-- **C10.** Every valid instant lies inside its half-open subscription
month: the month start is at or before `now`, and `now` is strictly
before the next month start, for present or absent anchors, including
short-month clamping cases. -/
theorem C10_now_within_subscription_month (anchor : Option UTCDate) (now : UTCDate)
    (ha : anchorValid anchor = true) (hn : isValidDT now = true) :
    dtLe (getSubscriptionMonthStart anchor now) now ∧
    dtLt now (getNextSubscriptionMonthStart anchor now) := by
  rw [getNextSubscriptionMonthStart_eq anchor now ha hn,
    getSubscriptionMonthStart_eq_spec anchor now ha hn]
  obtain ⟨hm0, hm1, hd0, hd1, hh0, hh1, hmi0, hmi1, hs0, hs1, hms0, hms1⟩ :=
    (isValidDT_iff now).mp hn
  have hbM := daysInMonth_bounds now.year now.month
  match anchor with
  | none =>
    unfold subscriptionMonthStartSpec nextOfSpec dtLe dtLt dtCode
    dsimp only
    constructor
    · omega
    · by_cases h11 : now.month = 11
      · rw [if_pos h11]
        dsimp only
        omega
      · rw [if_neg h11]
        dsimp only
        omega
  | some a =>
    obtain ⟨-, -, had0, had1, -⟩ := (isValidDT_iff a).mp ha
    unfold subscriptionMonthStartSpec nextOfSpec effectiveDay dtLe dtLt dtCode
    dsimp only
    by_cases hge : now.day ≥ min a.day (daysInMonth now.year now.month)
    · rw [if_pos hge]
      dsimp only
      constructor
      · omega
      · by_cases h11 : now.month = 11
        · rw [if_pos h11]
          dsimp only
          have hb2 := daysInMonth_bounds (now.year + 1) 0
          omega
        · rw [if_neg h11]
          dsimp only
          have hb2 := daysInMonth_bounds now.year (now.month + 1)
          omega
    · rw [if_neg hge]
      by_cases h0 : now.month = 0
      · simp only [if_pos h0]
        rw [h0] at hge hbM
        have hbP := daysInMonth_bounds (now.year - 1) 11
        constructor
        · omega
        · rw [if_pos (by norm_num)]
          dsimp only
          have hyy : now.year - 1 + 1 = now.year := by omega
          rw [hyy]
          omega
      · simp only [if_neg h0]
        have hbP := daysInMonth_bounds now.year (now.month - 1)
        constructor
        · omega
        · rw [if_neg (show ¬(now.month - 1 = 11) by omega)]
          dsimp only
          have hmm : now.month - 1 + 1 = now.month := by omega
          rw [hmm]
          omega

/-- Witness for C10 at the spec's S4 clamping input. -/
theorem C10_now_within_subscription_month_witness :
    anchorValid (some ⟨2025, 0, 31, 0, 0, 0, 0⟩) = true ∧
    isValidDT ⟨2025, 1, 15, 10, 0, 0, 0⟩ = true ∧
    (dtLe (getSubscriptionMonthStart (some ⟨2025, 0, 31, 0, 0, 0, 0⟩) ⟨2025, 1, 15, 10, 0, 0, 0⟩)
        ⟨2025, 1, 15, 10, 0, 0, 0⟩ ∧
      dtLt ⟨2025, 1, 15, 10, 0, 0, 0⟩
        (getNextSubscriptionMonthStart (some ⟨2025, 0, 31, 0, 0, 0, 0⟩) ⟨2025, 1, 15, 10, 0, 0, 0⟩)) :=
  ⟨by decide, by decide,
    C10_now_within_subscription_month (some ⟨2025, 0, 31, 0, 0, 0, 0⟩)
      ⟨2025, 1, 15, 10, 0, 0, 0⟩ (by decide) (by decide)⟩

-- ============================================================================
-- Rate-limit engine data model (src types + RateLimitChecker)
-- ============================================================================

/-- `PeriodType` enum; encoded in TS as the strings
"hourly" / "daily" / "monthly". -/
inductive PeriodType where
  | hourly
  | daily
  | monthly
deriving DecidableEq, Repr

/-- `RateLimits`: per-period optional limits; `none` models the TS
`undefined` (unlimited). -/
structure RateLimits where
  hourly : Option Int
  daily : Option Int
  monthly : Option Int
deriving DecidableEq, Repr

/-- `RateLimitRemaining`: per-period remaining counts, `none` = unlimited. -/
structure RateLimitRemaining where
  hourly : Option Int
  daily : Option Int
  monthly : Option Int
deriving DecidableEq, Repr

/-- Per-period current counts as read from the store. -/
structure Counts where
  hourly : Int
  daily : Int
  monthly : Int
deriving DecidableEq, Repr

/-- `RateLimitCheckResult` (the admission decision). -/
structure RateLimitCheckResult where
  allowed : Bool
  statusCode : Int
  remaining : RateLimitRemaining
  exceededLimit : Option PeriodType
  limits : RateLimits
deriving DecidableEq, Repr

/-- One row of the `rate_limit_counters` table. -/
structure CounterRow where
  user_id : String
  period_type : PeriodType
  period_start : UTCDate
  request_count : Int
  created_at : UTCDate
  updated_at : UTCDate
deriving DecidableEq, Repr

/-- The counter table: a list of rows (row ids are positional). -/
abbrev CounterStore := List CounterRow

/-- The `where` clause of the store queries: match on the unique key
`(user_id, period_type, period_start)`. -/
def rowMatches (u : String) (pt : PeriodType) (ps : UTCDate) (r : CounterRow) : Bool :=
  r.user_id = u && r.period_type = pt && r.period_start = ps

/-- Per-period field access, used to state per-period properties. -/
def limitOf (l : RateLimits) : PeriodType → Option Int
  | .hourly => l.hourly
  | .daily => l.daily
  | .monthly => l.monthly

def remOf (r : RateLimitRemaining) : PeriodType → Option Int
  | .hourly => r.hourly
  | .daily => r.daily
  | .monthly => r.monthly

def countOf (c : Counts) : PeriodType → Int
  | .hourly => c.hourly
  | .daily => c.daily
  | .monthly => c.monthly

-- ============================================================================
-- RateLimitChecker (src helpers/RateLimitChecker)
-- ============================================================================

/-- `getCountForPeriod`: `select … limit 1` on the unique key; `0` when no
row exists. -/
def getCountForPeriod (s : CounterStore) (u : String) (pt : PeriodType) (ps : UTCDate) : Int :=
  match s.find? (rowMatches u pt ps) with
  | some r => r.request_count
  | none => 0

/-- `incrementPeriodCounter`: find the existing row for the key and bump
`request_count` (updating `updated_at`), else insert a fresh row with
count 1.  The first (unique) matching row is updated in place; an insert
appends. -/
def incrementPeriodCounter (s : CounterStore) (u : String) (pt : PeriodType)
    (ps : UTCDate) (now : UTCDate) : CounterStore :=
  match s with
  | [] => [⟨u, pt, ps, 1, now, now⟩]
  | r :: rest =>
    if rowMatches u pt ps r then
      { r with request_count := r.request_count + 1, updated_at := now } :: rest
    else
      r :: incrementPeriodCounter rest u pt ps now

/-- `getCurrentCounts`: read the three per-period counters at the
canonical period starts (the three reads are independent; `Promise.all`
is modelled by simultaneous reads of the same store). -/
def getCurrentCounts (s : CounterStore) (u : String)
    (subscriptionStartedAt : Option UTCDate) (now : UTCDate) : Counts :=
  { hourly := getCountForPeriod s u .hourly (getCurrentHourStart now),
    daily := getCountForPeriod s u .daily (getCurrentDayStart now),
    monthly := getCountForPeriod s u .monthly (getSubscriptionMonthStart subscriptionStartedAt now) }

/-- `incrementCounters`: upsert a counter for each period whose limit is
present.  The three upserts touch pairwise distinct `period_type` keys,
so the source's `Promise.all` is modelled by sequential application. -/
def incrementCounters (s : CounterStore) (u : String) (limits : RateLimits)
    (subscriptionStartedAt : Option UTCDate) (now : UTCDate) : CounterStore :=
  let s1 := if limits.hourly.isSome then
      incrementPeriodCounter s u .hourly (getCurrentHourStart now) now
    else s
  let s2 := if limits.daily.isSome then
      incrementPeriodCounter s1 u .daily (getCurrentDayStart now) now
    else s1
  if limits.monthly.isSome then
    incrementPeriodCounter s2 u .monthly (getSubscriptionMonthStart subscriptionStartedAt now) now
  else s2

/-- `calculateRemaining`: `Math.max(0, limit - count)` per present limit,
`undefined` otherwise. -/
def calculateRemaining (counts : Counts) (limits : RateLimits) : RateLimitRemaining :=
  { hourly := limits.hourly.map (fun l => max 0 (l - counts.hourly)),
    daily := limits.daily.map (fun l => max 0 (l - counts.daily)),
    monthly := limits.monthly.map (fun l => max 0 (l - counts.monthly)) }

/-- `checkLimits`: sequential hourly → daily → monthly checks; a period
rejects when its limit is present and `count >= limit`. -/
def checkLimits (counts : Counts) (limits : RateLimits) : RateLimitCheckResult :=
  let remaining := calculateRemaining counts limits
  if limits.hourly.isSome && decide ((limits.hourly.getD 0) ≤ counts.hourly) then
    ⟨false, 429, remaining, some .hourly, limits⟩
  else if limits.daily.isSome && decide ((limits.daily.getD 0) ≤ counts.daily) then
    ⟨false, 429, remaining, some .daily, limits⟩
  else if limits.monthly.isSome && decide ((limits.monthly.getD 0) ≤ counts.monthly) then
    ⟨false, 429, remaining, some .monthly, limits⟩
  else
    ⟨true, 200, remaining, none, limits⟩

/-- `checkAndIncrement`: read counts, check, and if admitted increment the
enabled counters and report post-increment remaining.  Returns the
decision together with the updated store (the TS method mutates the DB). -/
def checkAndIncrement (s : CounterStore) (userId : String) (limits : RateLimits)
    (subscriptionStartedAt : Option UTCDate) (now : UTCDate) :
    RateLimitCheckResult × CounterStore :=
  let counts := getCurrentCounts s userId subscriptionStartedAt now
  let checkResult := checkLimits counts limits
  if !checkResult.allowed then
    (checkResult, s)
  else
    let s' := incrementCounters s userId limits subscriptionStartedAt now
    let remaining := calculateRemaining
      { hourly := counts.hourly + (if limits.hourly.isSome then 1 else 0),
        daily := counts.daily + (if limits.daily.isSome then 1 else 0),
        monthly := counts.monthly + (if limits.monthly.isSome then 1 else 0) }
      limits
    ({ allowed := true, statusCode := 200, remaining := remaining,
       exceededLimit := none, limits := limits }, s')

/-- `checkOnly`: read-only twin of `checkAndIncrement` (the spread
`{...checkResult, remaining, limits}` re-attaches the same remaining and
limits). -/
def checkOnly (s : CounterStore) (userId : String) (limits : RateLimits)
    (subscriptionStartedAt : Option UTCDate) (now : UTCDate) : RateLimitCheckResult :=
  let counts := getCurrentCounts s userId subscriptionStartedAt now
  let checkResult := checkLimits counts limits
  let remaining := calculateRemaining counts limits
  { checkResult with remaining := remaining, limits := limits }

-- ============================================================================
-- Store-shape lemmas
-- ============================================================================

/-- Row `r'` is the same counter key as `r` with a count at least as
large (what an upsert may do to an existing row). -/
def rowUpgraded (r r' : CounterRow) : Prop :=
  r'.user_id = r.user_id ∧ r'.period_type = r.period_type ∧
  r'.period_start = r.period_start ∧ r.request_count ≤ r'.request_count

theorem rowUpgraded_refl (r : CounterRow) : rowUpgraded r r :=
  ⟨rfl, rfl, rfl, le_refl _⟩

theorem rowUpgraded_trans {a b c : CounterRow}
    (h1 : rowUpgraded a b) (h2 : rowUpgraded b c) : rowUpgraded a c :=
  ⟨h2.1.trans h1.1, h2.2.1.trans h1.2.1, h2.2.2.1.trans h1.2.2.1,
   h1.2.2.2.trans h2.2.2.2⟩

/-- Store `s'` extends `s` pointwise: every pre-existing row position
still holds the same key with a count at least as large. -/
def storeUpgraded (s s' : CounterStore) : Prop :=
  ∀ i r, s.get? i = some r → ∃ r', s'.get? i = some r' ∧ rowUpgraded r r'

theorem storeUpgraded_refl (s : CounterStore) : storeUpgraded s s :=
  fun _ r h => ⟨r, h, rowUpgraded_refl r⟩

theorem storeUpgraded_trans {s1 s2 s3 : CounterStore}
    (h1 : storeUpgraded s1 s2) (h2 : storeUpgraded s2 s3) : storeUpgraded s1 s3 := by
  intro i r hr
  obtain ⟨r', hr', hu⟩ := h1 i r hr
  obtain ⟨r'', hr'', hu'⟩ := h2 i r' hr'
  exact ⟨r'', hr'', rowUpgraded_trans hu hu'⟩

/-- The upsert never deletes, rekeys, or decrements a pre-existing row. -/
theorem incrementPeriodCounter_upgraded (s : CounterStore) (u : String)
    (pt : PeriodType) (ps : UTCDate) (now : UTCDate) :
    storeUpgraded s (incrementPeriodCounter s u pt ps now) := by
  induction s with
  | nil => intro i r hr; simp at hr
  | cons hd tl ih =>
    intro i r hr
    unfold incrementPeriodCounter
    by_cases hm : rowMatches u pt ps hd
    · rw [if_pos hm]
      match i with
      | 0 =>
        simp only [List.get?] at hr
        cases hr
        exact ⟨_, rfl, rfl, rfl, rfl, by show hd.request_count ≤ hd.request_count + 1; omega⟩
      | i + 1 =>
        simp only [List.get?] at hr ⊢
        exact ⟨r, hr, rowUpgraded_refl r⟩
    · rw [if_neg hm]
      match i with
      | 0 =>
        simp only [List.get?] at hr
        cases hr
        exact ⟨hd, rfl, rowUpgraded_refl hd⟩
      | i + 1 =>
        simp only [List.get?] at hr ⊢
        exact ih i r hr

/-- `incrementCounters` only upgrades the store. -/
theorem incrementCounters_upgraded (s : CounterStore) (u : String)
    (limits : RateLimits) (sub : Option UTCDate) (now : UTCDate) :
    storeUpgraded s (incrementCounters s u limits sub now) := by
  have step : ∀ (st : CounterStore) (b : Bool) (pt : PeriodType) (ps : UTCDate),
      storeUpgraded st (if b then incrementPeriodCounter st u pt ps now else st) := by
    intro st b pt ps
    by_cases hb : b = true
    · rw [if_pos hb]
      exact incrementPeriodCounter_upgraded st u pt ps now
    · rw [if_neg hb]
      exact storeUpgraded_refl st
  unfold incrementCounters
  exact storeUpgraded_trans
    (storeUpgraded_trans
      (step s limits.hourly.isSome .hourly (getCurrentHourStart now))
      (step _ limits.daily.isSome .daily (getCurrentDayStart now)))
    (step _ limits.monthly.isSome .monthly (getSubscriptionMonthStart sub now))

-- ============================================================================
-- Decision-shape lemmas
-- ============================================================================

/-- Spec wording: period `p` is violated when its limit is present and the
pre-increment count is at least the limit. -/
def violatesB (counts : Counts) (limits : RateLimits) (p : PeriodType) : Bool :=
  (limitOf limits p).isSome && decide ((limitOf limits p).getD 0 ≤ countOf counts p)

/-- Spec wording: the first period in the fixed order
hourly → daily → monthly whose limit is violated. -/
def firstViolatedSpec (counts : Counts) (limits : RateLimits) : Option PeriodType :=
  [PeriodType.hourly, PeriodType.daily, PeriodType.monthly].find? (violatesB counts limits)

theorem firstViolatedSpec_eq (counts : Counts) (limits : RateLimits) :
    firstViolatedSpec counts limits =
      if violatesB counts limits .hourly then some .hourly
      else if violatesB counts limits .daily then some .daily
      else if violatesB counts limits .monthly then some .monthly
      else none := by
  unfold firstViolatedSpec
  by_cases hh : violatesB counts limits .hourly = true
  · rw [List.find?_cons_of_pos _ hh, if_pos hh]
  · rw [List.find?_cons_of_neg _ (by simpa using hh), if_neg hh]
    by_cases hd : violatesB counts limits .daily = true
    · rw [List.find?_cons_of_pos _ hd, if_pos hd]
    · rw [List.find?_cons_of_neg _ (by simpa using hd), if_neg hd]
      by_cases hm : violatesB counts limits .monthly = true
      · rw [List.find?_cons_of_pos _ hm, if_pos hm]
      · rw [List.find?_cons_of_neg _ (by simpa using hm), if_neg hm]
        rfl

theorem checkLimits_eq (counts : Counts) (limits : RateLimits) :
    checkLimits counts limits =
      if violatesB counts limits .hourly then
        ⟨false, 429, calculateRemaining counts limits, some .hourly, limits⟩
      else if violatesB counts limits .daily then
        ⟨false, 429, calculateRemaining counts limits, some .daily, limits⟩
      else if violatesB counts limits .monthly then
        ⟨false, 429, calculateRemaining counts limits, some .monthly, limits⟩
      else ⟨true, 200, calculateRemaining counts limits, none, limits⟩ := by
  rfl

/-- `checkAndIncrement` unpacked into its admit/reject branches. -/
theorem checkAndIncrement_eq (s : CounterStore) (u : String) (limits : RateLimits)
    (sub : Option UTCDate) (now : UTCDate) :
    checkAndIncrement s u limits sub now =
      (if (checkLimits (getCurrentCounts s u sub now) limits).allowed then
        ({ allowed := true, statusCode := 200,
           remaining := calculateRemaining
             { hourly := (getCurrentCounts s u sub now).hourly
                 + (if limits.hourly.isSome then 1 else 0),
               daily := (getCurrentCounts s u sub now).daily
                 + (if limits.daily.isSome then 1 else 0),
               monthly := (getCurrentCounts s u sub now).monthly
                 + (if limits.monthly.isSome then 1 else 0) } limits,
           exceededLimit := none, limits := limits },
         incrementCounters s u limits sub now)
      else (checkLimits (getCurrentCounts s u sub now) limits, s)) := by
  by_cases h : (checkLimits (getCurrentCounts s u sub now) limits).allowed = true
  · simp [checkAndIncrement, h]
  · simp only [Bool.not_eq_true] at h
    simp [checkAndIncrement, h]

/-- A rejecting `checkLimits` decision is a 429 naming the first violated
period. -/
theorem checkLimits_reject_spec (counts : Counts) (limits : RateLimits) :
    (checkLimits counts limits).allowed = false →
      (checkLimits counts limits).statusCode = 429 ∧
      (checkLimits counts limits).exceededLimit = firstViolatedSpec counts limits ∧
      (firstViolatedSpec counts limits).isSome = true := by
  rw [checkLimits_eq, firstViolatedSpec_eq]
  split_ifs <;> simp

theorem checkLimits_remaining (counts : Counts) (limits : RateLimits) :
    (checkLimits counts limits).remaining = calculateRemaining counts limits := by
  rw [checkLimits_eq]
  split_ifs <;> rfl

theorem checkLimits_limits (counts : Counts) (limits : RateLimits) :
    (checkLimits counts limits).limits = limits := by
  rw [checkLimits_eq]
  split_ifs <;> rfl

/-- **C2.** Whenever `checkAndIncrement` or `checkOnly` rejects, the
decision carries `allowed = false`, `statusCode = 429`, and
`exceededLimit` equal to the first period in the fixed order
hourly → daily → monthly whose limit is present and whose pre-increment
count reaches it. -/
theorem C2_reject_decision_shape (s : CounterStore) (u : String) (limits : RateLimits)
    (sub : Option UTCDate) (now : UTCDate) :
    ((checkAndIncrement s u limits sub now).1.allowed = false →
      (checkAndIncrement s u limits sub now).1.statusCode = 429 ∧
      (checkAndIncrement s u limits sub now).1.exceededLimit
        = firstViolatedSpec (getCurrentCounts s u sub now) limits ∧
      (firstViolatedSpec (getCurrentCounts s u sub now) limits).isSome = true) ∧
    ((checkOnly s u limits sub now).allowed = false →
      (checkOnly s u limits sub now).statusCode = 429 ∧
      (checkOnly s u limits sub now).exceededLimit
        = firstViolatedSpec (getCurrentCounts s u sub now) limits ∧
      (firstViolatedSpec (getCurrentCounts s u sub now) limits).isSome = true) := by
  constructor
  · rw [checkAndIncrement_eq]
    by_cases h : (checkLimits (getCurrentCounts s u sub now) limits).allowed = true
    · rw [if_pos h]
      intro hfalse
      simp at hfalse
    · rw [if_neg h]
      exact checkLimits_reject_spec _ _
  · unfold checkOnly
    dsimp only
    exact checkLimits_reject_spec _ _

/-- Witness for C2: a user over their hourly limit is rejected with a 429
naming hourly. -/
theorem C2_reject_decision_shape_witness :
    ((checkAndIncrement [] "u" ⟨some 0, some 5, none⟩ none ⟨2025, 5, 15, 14, 30, 45, 123⟩).1.statusCode = 429 ∧
      (checkAndIncrement [] "u" ⟨some 0, some 5, none⟩ none ⟨2025, 5, 15, 14, 30, 45, 123⟩).1.exceededLimit
        = firstViolatedSpec (getCurrentCounts [] "u" none ⟨2025, 5, 15, 14, 30, 45, 123⟩) ⟨some 0, some 5, none⟩ ∧
      (firstViolatedSpec (getCurrentCounts [] "u" none ⟨2025, 5, 15, 14, 30, 45, 123⟩) ⟨some 0, some 5, none⟩).isSome = true) ∧
    ((checkOnly [] "u" ⟨some 0, some 5, none⟩ none ⟨2025, 5, 15, 14, 30, 45, 123⟩).statusCode = 429 ∧
      (checkOnly [] "u" ⟨some 0, some 5, none⟩ none ⟨2025, 5, 15, 14, 30, 45, 123⟩).exceededLimit
        = firstViolatedSpec (getCurrentCounts [] "u" none ⟨2025, 5, 15, 14, 30, 45, 123⟩) ⟨some 0, some 5, none⟩ ∧
      (firstViolatedSpec (getCurrentCounts [] "u" none ⟨2025, 5, 15, 14, 30, 45, 123⟩) ⟨some 0, some 5, none⟩).isSome = true) :=
  ⟨(C2_reject_decision_shape [] "u" ⟨some 0, some 5, none⟩ none ⟨2025, 5, 15, 14, 30, 45, 123⟩).1 (by decide),
   (C2_reject_decision_shape [] "u" ⟨some 0, some 5, none⟩ none ⟨2025, 5, 15, 14, 30, 45, 123⟩).2 (by decide)⟩

theorem remOf_calculateRemaining (counts : Counts) (limits : RateLimits) (p : PeriodType) :
    remOf (calculateRemaining counts limits) p
      = (limitOf limits p).map (fun l => max 0 (l - countOf counts p)) := by
  cases p <;> rfl

/-- **C3.** `remaining` is computed from post-increment counts on admit
(`max(0, limit - (count + 1))`), from pre-increment counts on reject
(`max(0, limit - count)`); a period's `remaining` is present exactly when
its limit is, and the decision echoes the limits. -/
theorem C3_remaining_correctness (s : CounterStore) (u : String) (limits : RateLimits)
    (sub : Option UTCDate) (now : UTCDate) :
    ((checkAndIncrement s u limits sub now).1.allowed = true →
      ∀ p l, limitOf limits p = some l →
        remOf (checkAndIncrement s u limits sub now).1.remaining p
          = some (max 0 (l - (countOf (getCurrentCounts s u sub now) p + 1)))) ∧
    ((checkAndIncrement s u limits sub now).1.allowed = false →
      ∀ p l, limitOf limits p = some l →
        remOf (checkAndIncrement s u limits sub now).1.remaining p
          = some (max 0 (l - countOf (getCurrentCounts s u sub now) p))) ∧
    (∀ p, (remOf (checkAndIncrement s u limits sub now).1.remaining p).isSome
        = (limitOf limits p).isSome) ∧
    (checkAndIncrement s u limits sub now).1.limits = limits := by
  rw [checkAndIncrement_eq]
  by_cases h : (checkLimits (getCurrentCounts s u sub now) limits).allowed = true
  · rw [if_pos h]
    refine ⟨?_, ?_, ?_, rfl⟩
    · intro _ p l hl
      dsimp only
      rw [remOf_calculateRemaining, hl]
      have hsome : (limitOf limits p).isSome = true := by rw [hl]; rfl
      cases p <;>
        simp only [limitOf] at hsome ⊢ <;>
        simp only [countOf, Option.map_some] <;>
        rw [if_pos hsome] <;> rfl
    · intro hfalse
      simp at hfalse
    · intro p
      dsimp only
      rw [remOf_calculateRemaining]
      cases limitOf limits p <;> rfl
  · rw [if_neg h]
    refine ⟨?_, ?_, ?_, checkLimits_limits _ _⟩
    · intro htrue
      dsimp only at htrue
      exact absurd htrue h
    · intro _ p l hl
      dsimp only
      rw [checkLimits_remaining, remOf_calculateRemaining, hl]
      rfl
    · intro p
      dsimp only
      rw [checkLimits_remaining, remOf_calculateRemaining]
      cases limitOf limits p <;> rfl

/-- Witness for C3: one admitted and one rejected concrete request. -/
theorem C3_remaining_correctness_witness :
    (remOf (checkAndIncrement [] "u" ⟨some 2, some 5, none⟩ none ⟨2025, 5, 15, 14, 30, 45, 123⟩).1.remaining .hourly
        = some (max 0 (2 - (countOf (getCurrentCounts [] "u" none ⟨2025, 5, 15, 14, 30, 45, 123⟩) .hourly + 1)))) ∧
    (remOf (checkAndIncrement [] "u" ⟨some 0, some 5, none⟩ none ⟨2025, 5, 15, 14, 30, 45, 123⟩).1.remaining .hourly
        = some (max 0 (0 - countOf (getCurrentCounts [] "u" none ⟨2025, 5, 15, 14, 30, 45, 123⟩) .hourly))) :=
  ⟨(C3_remaining_correctness [] "u" ⟨some 2, some 5, none⟩ none ⟨2025, 5, 15, 14, 30, 45, 123⟩).1
      (by decide) .hourly 2 (by decide),
   (C3_remaining_correctness [] "u" ⟨some 0, some 5, none⟩ none ⟨2025, 5, 15, 14, 30, 45, 123⟩).2.1
      (by decide) .hourly 0 (by decide)⟩

/-- **C5.** Counter monotonicity: a rejected `checkAndIncrement` returns
the store untouched (no increments, no inserts), and any call leaves
every pre-existing row in place with the same key and a request count at
least as large. -/
theorem C5_counter_monotonicity (s : CounterStore) (u : String) (limits : RateLimits)
    (sub : Option UTCDate) (now : UTCDate) :
    ((checkAndIncrement s u limits sub now).1.allowed = false →
      (checkAndIncrement s u limits sub now).2 = s) ∧
    (∀ i r, s.get? i = some r →
      ∃ r', ((checkAndIncrement s u limits sub now).2).get? i = some r' ∧
        r'.user_id = r.user_id ∧ r'.period_type = r.period_type ∧
        r'.period_start = r.period_start ∧ r.request_count ≤ r'.request_count) := by
  rw [checkAndIncrement_eq]
  by_cases h : (checkLimits (getCurrentCounts s u sub now) limits).allowed = true
  · rw [if_pos h]
    constructor
    · intro hfalse
      simp at hfalse
    · intro i r hr
      exact incrementCounters_upgraded s u limits sub now i r hr
  · rw [if_neg h]
    exact ⟨fun _ => rfl, fun i r hr => ⟨r, hr, rfl, rfl, rfl, le_refl _⟩⟩

/-- Witness for C5: a rejected request leaves a one-row store unchanged,
and the row keeps its key and count. -/
theorem C5_counter_monotonicity_witness :
    ((checkAndIncrement
        [⟨"u", .hourly, ⟨2025, 5, 15, 14, 0, 0, 0⟩, 3, ⟨2025, 5, 15, 14, 0, 0, 0⟩, ⟨2025, 5, 15, 14, 0, 0, 0⟩⟩]
        "u" ⟨some 0, none, none⟩ none ⟨2025, 5, 15, 14, 30, 45, 123⟩).2
      = [⟨"u", .hourly, ⟨2025, 5, 15, 14, 0, 0, 0⟩, 3, ⟨2025, 5, 15, 14, 0, 0, 0⟩, ⟨2025, 5, 15, 14, 0, 0, 0⟩⟩]) ∧
    (∃ r', ((checkAndIncrement
        [⟨"u", .hourly, ⟨2025, 5, 15, 14, 0, 0, 0⟩, 3, ⟨2025, 5, 15, 14, 0, 0, 0⟩, ⟨2025, 5, 15, 14, 0, 0, 0⟩⟩]
        "u" ⟨some 0, none, none⟩ none ⟨2025, 5, 15, 14, 30, 45, 123⟩).2).get? 0 = some r' ∧
      r'.user_id = "u" ∧ r'.period_type = PeriodType.hourly ∧
      r'.period_start = ⟨2025, 5, 15, 14, 0, 0, 0⟩ ∧ (3 : Int) ≤ r'.request_count) :=
  ⟨(C5_counter_monotonicity _ "u" ⟨some 0, none, none⟩ none ⟨2025, 5, 15, 14, 30, 45, 123⟩).1
      (by decide),
   (C5_counter_monotonicity _ "u" ⟨some 0, none, none⟩ none ⟨2025, 5, 15, 14, 30, 45, 123⟩).2
      0 ⟨"u", .hourly, ⟨2025, 5, 15, 14, 0, 0, 0⟩, 3, ⟨2025, 5, 15, 14, 0, 0, 0⟩, ⟨2025, 5, 15, 14, 0, 0, 0⟩⟩
      (by decide)⟩

-- ============================================================================
-- Frame lemmas (which rows a request may touch)
-- ============================================================================

/-- All rows of the store for one `(user, period_type)` key. -/
def rowsFor (s : CounterStore) (u : String) (pt : PeriodType) : List CounterRow :=
  s.filter (fun r => r.user_id = u && r.period_type = pt)

theorem rowsFor_cons (r : CounterRow) (s : CounterStore) (u : String) (pt : PeriodType) :
    rowsFor (r :: s) u pt =
      if (r.user_id = u && r.period_type = pt) = true then r :: rowsFor s u pt
      else rowsFor s u pt := by
  simp [rowsFor, List.filter_cons]

/-- An upsert of key `(u, pt, ps)` leaves the rows of every other
`(user, period_type)` key untouched. -/
theorem incrementPeriodCounter_rowsFor (s : CounterStore) (u : String) (pt : PeriodType)
    (ps : UTCDate) (now : UTCDate) (u' : String) (pt' : PeriodType)
    (hne : u' ≠ u ∨ pt' ≠ pt) :
    rowsFor (incrementPeriodCounter s u pt ps now) u' pt' = rowsFor s u' pt' := by
  have hcond : ∀ r : CounterRow, r.user_id = u → r.period_type = pt →
      (r.user_id = u' && r.period_type = pt') = false := by
    intro r h1 h2
    rcases hne with h | h
    · have hne' : ¬(r.user_id = u') := by rw [h1]; exact fun hh => h hh.symm
      simp [hne']
    · have hne' : ¬(r.period_type = pt') := by rw [h2]; exact fun hh => h hh.symm
      simp [hne']
  induction s with
  | nil =>
    show rowsFor [⟨u, pt, ps, 1, now, now⟩] u' pt' = rowsFor [] u' pt'
    rw [rowsFor_cons, hcond ⟨u, pt, ps, 1, now, now⟩ rfl rfl]
    simp
  | cons hd tl ih =>
    unfold incrementPeriodCounter
    by_cases hm : rowMatches u pt ps hd = true
    · rw [if_pos hm]
      have hm' : (hd.user_id = u ∧ hd.period_type = pt) ∧ hd.period_start = ps := by
        simpa [rowMatches, Bool.and_eq_true, decide_eq_true_eq] using hm
      rw [rowsFor_cons, rowsFor_cons]
      have hc1 := hcond hd hm'.1.1 hm'.1.2
      rw [show ({ hd with request_count := hd.request_count + 1, updated_at := now } : CounterRow).user_id
            = hd.user_id from rfl]
      rw [show ({ hd with request_count := hd.request_count + 1, updated_at := now } : CounterRow).period_type
            = hd.period_type from rfl]
      rw [hc1]
      simp
    · rw [if_neg hm]
      rw [rowsFor_cons, rowsFor_cons]
      by_cases hc : (hd.user_id = u' && hd.period_type = pt') = true
      · rw [if_pos hc, if_pos hc, ih]
      · rw [if_neg hc, if_neg hc, ih]

/-- One conditional upsert step preserves every other key's rows. -/
theorem stepFrame (u : String) (now : UTCDate) (st : CounterStore) (b : Bool)
    (pt : PeriodType) (ps : UTCDate) (u' : String) (pt' : PeriodType)
    (hne : u' ≠ u ∨ pt' ≠ pt) :
    rowsFor (if b then incrementPeriodCounter st u pt ps now else st) u' pt'
      = rowsFor st u' pt' := by
  by_cases hb : b = true
  · rw [if_pos hb]
    exact incrementPeriodCounter_rowsFor st u pt ps now u' pt' hne
  · rw [if_neg hb]

/-- `incrementCounters` leaves untouched the rows of any other user and
the rows of any period whose limit is absent. -/
theorem incrementCounters_frame (s : CounterStore) (u : String) (limits : RateLimits)
    (sub : Option UTCDate) (now : UTCDate) (u' : String) (p' : PeriodType)
    (h : u' ≠ u ∨ limitOf limits p' = none) :
    rowsFor (incrementCounters s u limits sub now) u' p' = rowsFor s u' p' := by
  unfold incrementCounters
  rcases h with h | h
  · rw [stepFrame u now _ _ .monthly _ u' p' (Or.inl h),
      stepFrame u now _ _ .daily _ u' p' (Or.inl h),
      stepFrame u now _ _ .hourly _ u' p' (Or.inl h)]
  · cases p' with
    | hourly =>
      have hb : limits.hourly.isSome = false := by
        rw [show limits.hourly = none from h]; rfl
      rw [stepFrame u now _ _ .monthly _ u' .hourly (Or.inr (by simp)),
        stepFrame u now _ _ .daily _ u' .hourly (Or.inr (by simp)), hb]
      simp
    | daily =>
      have hb : limits.daily.isSome = false := by
        rw [show limits.daily = none from h]; rfl
      rw [stepFrame u now _ _ .monthly _ u' .daily (Or.inr (by simp)), hb]
      simp only [Bool.false_eq_true, if_false]
      rw [stepFrame u now _ _ .hourly _ u' .daily (Or.inr (by simp))]
    | monthly =>
      have hb : limits.monthly.isSome = false := by
        rw [show limits.monthly = none from h]; rfl
      rw [hb]
      simp only [Bool.false_eq_true, if_false]
      rw [stepFrame u now _ _ .daily _ u' .monthly (Or.inr (by simp)),
        stepFrame u now _ _ .hourly _ u' .monthly (Or.inr (by simp))]

/-- One request (admitted or not) preserves other users' rows and
unlimited periods' rows. -/
theorem checkAndIncrement_frame (s : CounterStore) (u : String) (limits : RateLimits)
    (sub : Option UTCDate) (now : UTCDate) (u' : String) (p' : PeriodType)
    (h : u' ≠ u ∨ limitOf limits p' = none) :
    rowsFor ((checkAndIncrement s u limits sub now).2) u' p' = rowsFor s u' p' := by
  rw [checkAndIncrement_eq]
  by_cases hall : (checkLimits (getCurrentCounts s u sub now) limits).allowed = true
  · rw [if_pos hall]
    exact incrementCounters_frame s u limits sub now u' p' h
  · rw [if_neg hall]

/-- A sequence of requests for one user, each at its own instant. -/
def runRequests (s : CounterStore) (u : String) (limits : RateLimits)
    (sub : Option UTCDate) (nows : List UTCDate) : CounterStore :=
  nows.foldl (fun st now => (checkAndIncrement st u limits sub now).2) s

theorem runRequests_frame (u : String) (limits : RateLimits) (sub : Option UTCDate)
    (u' : String) (p' : PeriodType) (h : u' ≠ u ∨ limitOf limits p' = none) :
    ∀ (nows : List UTCDate) (s : CounterStore),
      rowsFor (runRequests s u limits sub nows) u' p' = rowsFor s u' p' := by
  intro nows
  induction nows with
  | nil => intro s; rfl
  | cons n ns ih =>
    intro s
    show rowsFor (runRequests ((checkAndIncrement s u limits sub n).2) u limits sub ns) u' p'
      = rowsFor s u' p'
    rw [ih, checkAndIncrement_frame s u limits sub n u' p' h]

/-- **C6.** Unlimited ⇒ no write: an admitted (or rejected) request
writes counters only for periods whose limit is present — rows for a
period with an absent limit and rows of other users are untouched, and
after any sequence of requests no row for an unlimited period was
created by those requests. -/
theorem C6_unlimited_no_write (s : CounterStore) (u : String) (limits : RateLimits)
    (sub : Option UTCDate) :
    (∀ now p, limitOf limits p = none →
      rowsFor ((checkAndIncrement s u limits sub now).2) u p = rowsFor s u p) ∧
    (∀ now u' p', u' ≠ u →
      rowsFor ((checkAndIncrement s u limits sub now).2) u' p' = rowsFor s u' p') ∧
    (∀ nows p, limitOf limits p = none →
      rowsFor (runRequests s u limits sub nows) u p = rowsFor s u p) :=
  ⟨fun now p hp => checkAndIncrement_frame s u limits sub now u p (Or.inr hp),
   fun now u' p' hu => checkAndIncrement_frame s u limits sub now u' p' (Or.inl hu),
   fun nows p hp => runRequests_frame u limits sub u p (Or.inr hp) nows s⟩

/-- Witness for C6: with an absent monthly limit, two admitted requests
create no monthly row, and another user's rows are untouched. -/
theorem C6_unlimited_no_write_witness :
    (rowsFor ((checkAndIncrement [] "u" ⟨some 5, some 9, none⟩ none ⟨2025, 5, 15, 14, 30, 45, 123⟩).2)
        "u" .monthly = rowsFor [] "u" .monthly) ∧
    (rowsFor ((checkAndIncrement [] "u" ⟨some 5, some 9, none⟩ none ⟨2025, 5, 15, 14, 30, 45, 123⟩).2)
        "v" .hourly = rowsFor [] "v" .hourly) ∧
    (rowsFor (runRequests [] "u" ⟨some 5, some 9, none⟩ none
        [⟨2025, 5, 15, 14, 30, 45, 123⟩, ⟨2025, 5, 15, 14, 31, 0, 0⟩]) "u" .monthly
      = rowsFor [] "u" .monthly) :=
  ⟨(C6_unlimited_no_write [] "u" ⟨some 5, some 9, none⟩ none).1
      ⟨2025, 5, 15, 14, 30, 45, 123⟩ .monthly (by decide),
   (C6_unlimited_no_write [] "u" ⟨some 5, some 9, none⟩ none).2.1
      ⟨2025, 5, 15, 14, 30, 45, 123⟩ "v" .hourly (by decide),
   (C6_unlimited_no_write [] "u" ⟨some 5, some 9, none⟩ none).2.2
      [⟨2025, 5, 15, 14, 30, 45, 123⟩, ⟨2025, 5, 15, 14, 31, 0, 0⟩] .monthly (by decide)⟩

-- ============================================================================
-- Entitlement resolver (src helpers/EntitlementHelper)
-- ============================================================================

/-- `NONE_ENTITLEMENT`, the reserved fallback key. -/
def NONE_ENTITLEMENT : String := "none"

/-- `RateLimitsConfig`: a string-keyed object of `RateLimits` rows,
modelled as an association list; `lookupConfig` models property access
(`config[e]`), returning `none` for a missing key (JS `undefined`). -/
abbrev RateLimitsConfig := List (String × RateLimits)

def lookupConfig (cfg : RateLimitsConfig) (e : String) : Option RateLimits :=
  (cfg.find? (fun kv => kv.1 = e)).map (·.2)

/-- The `EntitlementHelper` class: the constructor only stores the config
(it performs no validation). -/
structure EntitlementHelper where
  config : RateLimitsConfig

def mkEntitlementHelper (cfg : RateLimitsConfig) : EntitlementHelper := ⟨cfg⟩

/-- `this.config[ent] ?? this.config[NONE_ENTITLEMENT]`. -/
def resolveRow (cfg : RateLimitsConfig) (e : String) : Option RateLimits :=
  match lookupConfig cfg e with
  | some r => some r
  | none => lookupConfig cfg NONE_ENTITLEMENT

/-- The rows selected for a multi-entitlement set.  A `none` result models
the TypeError JS raises downstream when a selected row is `undefined`
(possible only when the required `"none"` key is absent). -/
def resolveRows (cfg : RateLimitsConfig) : List String → Option (List RateLimits)
  | [] => some []
  | e :: rest =>
    match resolveRow cfg e, resolveRows cfg rest with
    | some r, some rs => some (r :: rs)
    | _, _ => none

/-- `maxLimit`: `undefined` (unlimited) wins; otherwise `Math.max` of the
defined values.  (`Math.max()` of an empty list is `-Infinity` in JS; the
empty case is modelled as `none` and never reached: `computeUpperBound`
is only called with at least two entitlements.) -/
def maxLimit (values : List (Option Int)) : Option Int :=
  if values.any (fun v => v.isNone) then none
  else
    match values.filterMap id with
    | [] => none
    | x :: xs => some (xs.foldl max x)

/-- `computeUpperBound`: field-wise `maxLimit` over the selected rows. -/
def computeUpperBound (cfg : RateLimitsConfig) (entitlements : List String) :
    Option RateLimits :=
  match resolveRows cfg entitlements with
  | none => none
  | some limits =>
    some ⟨maxLimit (limits.map (·.hourly)), maxLimit (limits.map (·.daily)),
      maxLimit (limits.map (·.monthly))⟩

/-- `getRateLimits` (array form; the TS overload wraps a single string
into a one-element array): empty set → `config["none"]`, singleton →
`config[e] ?? config["none"]`, otherwise the upper bound.  A `none`
result models `undefined` (missing `"none"` key). -/
def getRateLimits (cfg : RateLimitsConfig) (entitlements : List String) :
    Option RateLimits :=
  match entitlements with
  | [] => lookupConfig cfg NONE_ENTITLEMENT
  | [e] => resolveRow cfg e
  | _ => computeUpperBound cfg entitlements

/-- The repository's EntitlementHelper tests on its test config. -/
theorem scenario_entitlement_tests :
    getRateLimits
        [("none", ⟨some 5, some 20, some 100⟩), ("starter", ⟨some 10, some 50, some 500⟩),
         ("pro", ⟨some 100, none, none⟩), ("enterprise", ⟨none, none, none⟩)]
        ["starter", "pro"] = some ⟨some 100, none, none⟩ ∧
    getRateLimits
        [("none", ⟨some 5, some 20, some 100⟩), ("starter", ⟨some 10, some 50, some 500⟩),
         ("pro", ⟨some 100, none, none⟩), ("enterprise", ⟨none, none, none⟩)]
        ["unknown1", "starter", "unknown2"] = some ⟨some 10, some 50, some 500⟩ ∧
    getRateLimits
        [("none", ⟨some 5, some 20, some 100⟩), ("starter", ⟨some 10, some 50, some 500⟩)]
        [] = some ⟨some 5, some 20, some 100⟩ := by
  refine ⟨by decide, by decide, by decide⟩

theorem foldl_max_mem (x : Int) (xs : List Int) : xs.foldl max x ∈ x :: xs := by
  induction xs generalizing x with
  | nil => simp [List.foldl]
  | cons y ys ih =>
    show ys.foldl max (max x y) ∈ x :: y :: ys
    have h := ih (max x y)
    rcases List.mem_cons.mp h with h1 | h1
    · rcases le_total x y with hxy | hxy
      · exact List.mem_cons.mpr (Or.inr (List.mem_cons.mpr (Or.inl (h1.trans (max_eq_right hxy)))))
      · exact List.mem_cons.mpr (Or.inl (h1.trans (max_eq_left hxy)))
    · exact List.mem_cons.mpr (Or.inr (List.mem_cons.mpr (Or.inr h1)))

theorem foldl_max_le (x : Int) (xs : List Int) : ∀ y ∈ x :: xs, y ≤ xs.foldl max x := by
  induction xs generalizing x with
  | nil =>
    intro y hy
    simp at hy
    simp [List.foldl, hy]
  | cons z zs ih =>
    intro y hy
    rcases List.mem_cons.mp hy with h1 | h1
    · subst h1
      have := ih (max y z) (max y z) (List.mem_cons_self _ _)
      calc y ≤ max y z := le_max_left _ _
        _ ≤ zs.foldl max (max y z) := this
    · rcases List.mem_cons.mp h1 with h2 | h2
      · subst h2
        have := ih (max x y) (max x y) (List.mem_cons_self _ _)
        calc y ≤ max x y := le_max_right _ _
          _ ≤ zs.foldl max (max x y) := this
      · exact ih (max x z) y (List.mem_cons.mpr (Or.inr h2))

theorem maxLimit_none_iff (values : List (Option Int)) (hne : values ≠ []) :
    maxLimit values = none ↔ none ∈ values := by
  unfold maxLimit
  by_cases hany : values.any (fun v => v.isNone) = true
  · rw [if_pos hany]
    simp only [List.any_eq_true, Option.isNone_iff_eq_none] at hany
    obtain ⟨v, hv, hv'⟩ := hany
    subst hv'
    simp [hv]
  · rw [if_neg hany]
    simp only [List.any_eq_true, Option.isNone_iff_eq_none, not_exists, not_and] at hany
    match hvals : values, hne with
    | v :: rest, _ =>
      match v, hany v (by simp) with
      | some a, _ =>
        simp only [List.filterMap]
        constructor
        · intro h
          simp [Option.some.injEq, id] at h
        · intro h
          rcases List.mem_cons.mp h with h1 | h1
          · exact absurd h1.symm (by simp)
          · exact absurd rfl (hany none (List.mem_cons.mpr (Or.inr h1)))

theorem maxLimit_some (values : List (Option Int)) (n : Int)
    (h : maxLimit values = some n) :
    some n ∈ values ∧ ∀ m : Int, some m ∈ values → m ≤ n := by
  unfold maxLimit at h
  by_cases hany : values.any (fun v => v.isNone) = true
  · rw [if_pos hany] at h
    cases h
  · rw [if_neg hany] at h
    rcases hfm : values.filterMap id with _ | ⟨x, xs⟩
    · rw [hfm] at h
      exact absurd h (by simp)
    · rw [hfm] at h
      have h' : some (xs.foldl max x) = some n := h
      obtain rfl := Option.some.inj h'
      constructor
      · have hmem : xs.foldl max x ∈ x :: xs := foldl_max_mem x xs
        rw [← hfm] at hmem
        obtain ⟨a, ha, ha'⟩ := List.mem_filterMap.mp hmem
        simp only [id] at ha'
        rwa [ha'] at ha
      · intro m hm
        have hm' : m ∈ values.filterMap id := List.mem_filterMap.mpr ⟨some m, hm, rfl⟩
        rw [hfm] at hm'
        exact foldl_max_le x xs m hm'

theorem resolveRow_some (cfg : RateLimitsConfig) (nrow : RateLimits) (e : String)
    (hnone : lookupConfig cfg NONE_ENTITLEMENT = some nrow) :
    resolveRow cfg e = some ((lookupConfig cfg e).getD nrow) := by
  unfold resolveRow
  cases h : lookupConfig cfg e <;> simp [h, hnone]

theorem resolveRows_some (cfg : RateLimitsConfig) (nrow : RateLimits)
    (hnone : lookupConfig cfg NONE_ENTITLEMENT = some nrow) (S : List String) :
    resolveRows cfg S = some (S.map (fun e => (lookupConfig cfg e).getD nrow)) := by
  induction S with
  | nil => rfl
  | cons e rest ih =>
    unfold resolveRows
    rw [resolveRow_some cfg nrow e hnone, ih]
    rfl

/-- Spec-side field-wise upper bound: the joined field is absent exactly
when some contributing row has it absent, and otherwise is the maximum of
the (all present) values. -/
def fieldJoin (rows : List RateLimits) (get : RateLimits → Option Int) (v : Option Int) : Prop :=
  (v = none ↔ ∃ r ∈ rows, get r = none) ∧
  (∀ n : Int, v = some n →
    some n ∈ rows.map get ∧ ∀ m : Int, some m ∈ rows.map get → m ≤ n)

theorem fieldJoin_maxLimit (rows : List RateLimits) (get : RateLimits → Option Int)
    (hne : rows ≠ []) : fieldJoin rows get (maxLimit (rows.map get)) := by
  constructor
  · rw [maxLimit_none_iff _ (by simpa using hne)]
    simp [List.mem_map]
  · intro n h
    exact maxLimit_some _ n h

/-- **C4.** For a config containing the required `"none"` row and any set
of at least two entitlements, `getRateLimits` is the field-wise
upper-bound join of the per-entitlement rows, with unknown names
contributing the `"none"` row. -/
theorem C4_upper_bound_join (cfg : RateLimitsConfig) (nrow : RateLimits)
    (hnone : lookupConfig cfg NONE_ENTITLEMENT = some nrow)
    (S : List String) (hlen : 2 ≤ S.length) :
    ∃ joined, getRateLimits cfg S = some joined ∧
      fieldJoin (S.map (fun e => (lookupConfig cfg e).getD nrow)) (·.hourly) joined.hourly ∧
      fieldJoin (S.map (fun e => (lookupConfig cfg e).getD nrow)) (·.daily) joined.daily ∧
      fieldJoin (S.map (fun e => (lookupConfig cfg e).getD nrow)) (·.monthly) joined.monthly := by
  match S, hlen with
  | e1 :: e2 :: rest, _ =>
    have hrows := resolveRows_some cfg nrow hnone (e1 :: e2 :: rest)
    have hne : ((e1 :: e2 :: rest).map (fun e => (lookupConfig cfg e).getD nrow)) ≠ [] := by
      simp
    refine ⟨⟨maxLimit (((e1 :: e2 :: rest).map (fun e => (lookupConfig cfg e).getD nrow)).map (·.hourly)),
        maxLimit (((e1 :: e2 :: rest).map (fun e => (lookupConfig cfg e).getD nrow)).map (·.daily)),
        maxLimit (((e1 :: e2 :: rest).map (fun e => (lookupConfig cfg e).getD nrow)).map (·.monthly))⟩,
      ?_, fieldJoin_maxLimit _ _ hne, fieldJoin_maxLimit _ _ hne, fieldJoin_maxLimit _ _ hne⟩
    show computeUpperBound cfg (e1 :: e2 :: rest) = _
    unfold computeUpperBound
    rw [hrows]

/-- Witness for C4 on the repository's test config and the set
`{"starter", "pro"}`. -/
theorem C4_upper_bound_join_witness :
    ∃ joined, getRateLimits
        [("none", ⟨some 5, some 20, some 100⟩), ("starter", ⟨some 10, some 50, some 500⟩),
         ("pro", ⟨some 100, none, none⟩)] ["starter", "pro"] = some joined ∧
      fieldJoin (["starter", "pro"].map (fun e => (lookupConfig
        [("none", ⟨some 5, some 20, some 100⟩), ("starter", ⟨some 10, some 50, some 500⟩),
         ("pro", ⟨some 100, none, none⟩)] e).getD ⟨some 5, some 20, some 100⟩)) (·.hourly) joined.hourly ∧
      fieldJoin (["starter", "pro"].map (fun e => (lookupConfig
        [("none", ⟨some 5, some 20, some 100⟩), ("starter", ⟨some 10, some 50, some 500⟩),
         ("pro", ⟨some 100, none, none⟩)] e).getD ⟨some 5, some 20, some 100⟩)) (·.daily) joined.daily ∧
      fieldJoin (["starter", "pro"].map (fun e => (lookupConfig
        [("none", ⟨some 5, some 20, some 100⟩), ("starter", ⟨some 10, some 50, some 500⟩),
         ("pro", ⟨some 100, none, none⟩)] e).getD ⟨some 5, some 20, some 100⟩)) (·.monthly) joined.monthly :=
  C4_upper_bound_join
    [("none", ⟨some 5, some 20, some 100⟩), ("starter", ⟨some 10, some 50, some 500⟩),
     ("pro", ⟨some 100, none, none⟩)] ⟨some 5, some 20, some 100⟩ (by decide)
    ["starter", "pro"] (by decide)

/-- Counterexample to C8: on a concrete config lacking the `"none"` key,
construction of the resolver succeeds (it stores the config unvalidated)
and entitlement resolution still proceeds, silently yielding an absent
(`undefined`) limits row — nothing fails at startup. -/
theorem C8_counterexample :
    lookupConfig [("basic", ⟨some 1, some 2, some 3⟩)] NONE_ENTITLEMENT = none ∧
    (mkEntitlementHelper [("basic", ⟨some 1, some 2, some 3⟩)]).config
      = [("basic", ⟨some 1, some 2, some 3⟩)] ∧
    getRateLimits [("basic", ⟨some 1, some 2, some 3⟩)] ["unknownTier"] = none ∧
    getRateLimits [("basic", ⟨some 1, some 2, some 3⟩)] [] = none := by
  refine ⟨by decide, rfl, by decide, by decide⟩

/-- **C8 (amended).** The core performs no startup validation of
`rateLimitsConfig`: the resolver's constructor accepts any config,
including one lacking the `"none"` key (the required-key invariant is
enforced only by the TypeScript type system at compile time), and at
request time resolution against such a config silently returns an absent
(`undefined`) limits row for an empty or unknown-singleton entitlement
set instead of failing. -/
theorem C8_amended_no_startup_validation (cfg : RateLimitsConfig) (e : String)
    (hn : lookupConfig cfg NONE_ENTITLEMENT = none)
    (he : lookupConfig cfg e = none) :
    (mkEntitlementHelper cfg).config = cfg ∧
    getRateLimits cfg [e] = none ∧
    getRateLimits cfg [] = none := by
  refine ⟨rfl, ?_, ?_⟩
  · show resolveRow cfg e = none
    unfold resolveRow
    rw [he, hn]
  · show lookupConfig cfg NONE_ENTITLEMENT = none
    exact hn

/-- Witness for the amended C8 on the concrete `"none"`-less config. -/
theorem C8_amended_no_startup_validation_witness :
    (mkEntitlementHelper [("basic", ⟨some 1, some 2, some 3⟩)]).config
      = [("basic", ⟨some 1, some 2, some 3⟩)] ∧
    getRateLimits [("basic", ⟨some 1, some 2, some 3⟩)] ["unknownTier"] = none ∧
    getRateLimits [("basic", ⟨some 1, some 2, some 3⟩)] [] = none :=
  C8_amended_no_startup_validation [("basic", ⟨some 1, some 2, some 3⟩)] "unknownTier"
    (by decide) (by decide)

-- ============================================================================
-- Subscription provider lookups (RevenueCatHelper / SubscriptionHelper)
-- ============================================================================

/-- A decoded RevenueCat entitlement entry. -/
structure RevenueCatEntitlement where
  expires_date : Option UTCDate
  product_identifier : String
  purchase_date : UTCDate
deriving DecidableEq, Repr

/-- A decoded RevenueCat subscription entry (only the `sandbox` flag is
consumed by the helpers). -/
structure RevenueCatSubscription where
  sandbox : Bool
deriving DecidableEq, Repr

/-- The decoded subscriber response body (entitlement and subscription
objects become association lists in entry order). -/
structure RevenueCatSubscriberData where
  entitlements : List (String × RevenueCatEntitlement)
  subscriptions : List (String × RevenueCatSubscription)
deriving DecidableEq, Repr

/-- `SubscriptionInfo`. -/
structure SubscriptionInfo where
  entitlements : List String
  subscriptionStartedAt : Option UTCDate
deriving DecidableEq, Repr

/-- `!entitlement.expires_date || new Date(entitlement.expires_date) > now`. -/
def entActive (ent : RevenueCatEntitlement) (now : UTCDate) : Bool :=
  match ent.expires_date with
  | none => true
  | some ex => dtLtb now ex

/-- The earliest-purchase-date update step:
`if (!earliest || purchase < earliest) earliest = purchase`. -/
def minDate (earliest : Option UTCDate) (d : UTCDate) : Option UTCDate :=
  match earliest with
  | none => some d
  | some e => if dtLtb d e then some d else some e

/-- `subscriptions[ent.product_identifier]?.sandbox === true`. -/
def sandboxFlagged (subs : List (String × RevenueCatSubscription))
    (ent : RevenueCatEntitlement) : Bool :=
  match subs.find? (fun kv => kv.1 = ent.product_identifier) with
  | some sub => sub.2.sandbox
  | none => false

/-- The entitlement loop of `RevenueCatHelper.getSubscriptionInfo` (used
by the hono middleware): keeps every *active* entry — there is no
sandbox check here — and tracks the earliest purchase date. -/
def revenueCatLoop (now : UTCDate) :
    List (String × RevenueCatEntitlement) → List String → Option UTCDate →
      List String × Option UTCDate
  | [], names, earliest => (names, earliest)
  | (name, ent) :: rest, names, earliest =>
    if entActive ent now then
      revenueCatLoop now rest (names ++ [name]) (minDate earliest ent.purchase_date)
    else
      revenueCatLoop now rest names earliest

/-- The entitlement loop of `SubscriptionHelper.getSubscriptionInfo`:
additionally skips entries whose backing subscription is sandbox-flagged
unless `testMode` is set. -/
def subscriptionHelperLoop (subs : List (String × RevenueCatSubscription))
    (testMode : Bool) (now : UTCDate) :
    List (String × RevenueCatEntitlement) → List String → Option UTCDate →
      List String × Option UTCDate
  | [], names, earliest => (names, earliest)
  | (name, ent) :: rest, names, earliest =>
    if !(entActive ent now) then
      subscriptionHelperLoop subs testMode now rest names earliest
    else if !testMode && sandboxFlagged subs ent then
      subscriptionHelperLoop subs testMode now rest names earliest
    else
      subscriptionHelperLoop subs testMode now rest
        (names ++ [name]) (minDate earliest ent.purchase_date)

namespace RevenueCatHelper

/-- `RevenueCatHelper.getSubscriptionInfo` after a 200 response: the
post-decode processing (the middleware's lookup). -/
def getSubscriptionInfo (data : RevenueCatSubscriberData) (now : UTCDate) :
    SubscriptionInfo :=
  let r := revenueCatLoop now data.entitlements [] none
  if r.1.isEmpty then ⟨[NONE_ENTITLEMENT], none⟩
  else ⟨r.1, r.2⟩

end RevenueCatHelper

namespace SubscriptionHelper

/-- `SubscriptionHelper.getSubscriptionInfo` after a 200 response: the
post-decode processing with expiry and sandbox filtering. -/
def getSubscriptionInfo (data : RevenueCatSubscriberData) (testMode : Bool)
    (now : UTCDate) : SubscriptionInfo :=
  let r := subscriptionHelperLoop data.subscriptions testMode now data.entitlements [] none
  if r.1.isEmpty then ⟨[NONE_ENTITLEMENT], none⟩
  else ⟨r.1, r.2⟩

end SubscriptionHelper

/-- An active non-sandbox entry survives the filtering helper, and an
expired entry is dropped by the middleware's helper. -/
theorem scenario_subscription_lookups :
    SubscriptionHelper.getSubscriptionInfo
        ⟨[("pro", ⟨none, "p1", ⟨2025, 0, 10, 0, 0, 0, 0⟩⟩)], [("p1", ⟨false⟩)]⟩ false
        ⟨2025, 5, 15, 0, 0, 0, 0⟩ = ⟨["pro"], some ⟨2025, 0, 10, 0, 0, 0, 0⟩⟩ ∧
    RevenueCatHelper.getSubscriptionInfo
        ⟨[("pro", ⟨some ⟨2025, 0, 20, 0, 0, 0, 0⟩, "p1", ⟨2025, 0, 10, 0, 0, 0, 0⟩⟩)], []⟩
        ⟨2025, 5, 15, 0, 0, 0, 0⟩ = ⟨[NONE_ENTITLEMENT], none⟩ := by
  refine ⟨by decide, by decide⟩

/-- Counterexample to C9: the lookup the admission pipeline actually
calls (`RevenueCatHelper.getSubscriptionInfo`, see the hono middleware)
keeps an active entitlement whose backing subscription is flagged
sandbox; only `SubscriptionHelper.getSubscriptionInfo` (not called by the
middleware) filters it. -/
theorem C9_counterexample :
    (RevenueCatSubscriberData.mk [("pro", ⟨none, "p1", ⟨2025, 0, 10, 0, 0, 0, 0⟩⟩)]
        [("p1", ⟨true⟩)]).subscriptions.find? (fun kv => kv.1 = "p1")
      = some ("p1", ⟨true⟩) ∧
    RevenueCatHelper.getSubscriptionInfo
      ⟨[("pro", ⟨none, "p1", ⟨2025, 0, 10, 0, 0, 0, 0⟩⟩)], [("p1", ⟨true⟩)]⟩
      ⟨2025, 5, 15, 0, 0, 0, 0⟩ = ⟨["pro"], some ⟨2025, 0, 10, 0, 0, 0, 0⟩⟩ ∧
    SubscriptionHelper.getSubscriptionInfo
      ⟨[("pro", ⟨none, "p1", ⟨2025, 0, 10, 0, 0, 0, 0⟩⟩)], [("p1", ⟨true⟩)]⟩ false
      ⟨2025, 5, 15, 0, 0, 0, 0⟩ = ⟨[NONE_ENTITLEMENT], none⟩ := by
  refine ⟨by decide, by decide, by decide⟩

/-- The surviving entries of the sandbox-filtering helper. -/
def survivingSH (data : RevenueCatSubscriberData) (testMode : Bool) (now : UTCDate) :
    List (String × RevenueCatEntitlement) :=
  data.entitlements.filter (fun ne =>
    entActive ne.2 now && !(!testMode && sandboxFlagged data.subscriptions ne.2))

/-- The surviving entries of the middleware's helper (activity only). -/
def survivingRC (data : RevenueCatSubscriberData) (now : UTCDate) :
    List (String × RevenueCatEntitlement) :=
  data.entitlements.filter (fun ne => entActive ne.2 now)

theorem revenueCatLoop_spec (now : UTCDate) :
    ∀ (l : List (String × RevenueCatEntitlement)) (names : List String)
      (earliest : Option UTCDate),
      revenueCatLoop now l names earliest
        = (names ++ (l.filter (fun ne => entActive ne.2 now)).map (·.1),
           ((l.filter (fun ne => entActive ne.2 now)).map (·.2.purchase_date)).foldl
             minDate earliest) := by
  intro l
  induction l with
  | nil => intro names earliest; simp [revenueCatLoop]
  | cons hd tl ih =>
    intro names earliest
    match hd with
    | (name, ent) =>
      simp only [revenueCatLoop]
      by_cases ha : entActive ent now = true
      · rw [if_pos ha, ih]
        rw [List.filter_cons, if_pos ha]
        simp
      · rw [if_neg ha, ih]
        rw [List.filter_cons, if_neg ha]

theorem subscriptionHelperLoop_spec (subs : List (String × RevenueCatSubscription))
    (testMode : Bool) (now : UTCDate) :
    ∀ (l : List (String × RevenueCatEntitlement)) (names : List String)
      (earliest : Option UTCDate),
      subscriptionHelperLoop subs testMode now l names earliest
        = (names ++ (l.filter (fun ne =>
              entActive ne.2 now && !(!testMode && sandboxFlagged subs ne.2))).map (·.1),
           ((l.filter (fun ne =>
              entActive ne.2 now && !(!testMode && sandboxFlagged subs ne.2))).map
                (·.2.purchase_date)).foldl minDate earliest) := by
  intro l
  induction l with
  | nil => intro names earliest; simp [subscriptionHelperLoop]
  | cons hd tl ih =>
    intro names earliest
    match hd with
    | (name, ent) =>
      simp only [subscriptionHelperLoop]
      by_cases ha : entActive ent now = true
      · by_cases hs : (!testMode && sandboxFlagged subs ent) = true
        · rw [if_neg (show ¬((!entActive ent now) = true) from by simp [ha]), if_pos hs, ih]
          rw [List.filter_cons, if_neg (by simp [ha, hs])]
        · rw [if_neg (show ¬((!entActive ent now) = true) from by simp [ha]), if_neg hs, ih]
          rw [List.filter_cons, if_pos (by simp [ha, hs])]
          simp
      · rw [if_pos (show (!entActive ent now) = true from by simp [ha]), ih]
        rw [List.filter_cons, if_neg (by simp [ha])]

theorem foldl_minDate_some (ds : List UTCDate) (a : UTCDate) :
    ∃ d, ds.foldl minDate (some a) = some d ∧ (d = a ∨ d ∈ ds) ∧
      dtCode d ≤ dtCode a ∧ ∀ d' ∈ ds, dtCode d ≤ dtCode d' := by
  induction ds generalizing a with
  | nil => exact ⟨a, rfl, Or.inl rfl, le_refl _, by simp⟩
  | cons x xs ih =>
    show ∃ d, xs.foldl minDate (minDate (some a) x) = some d ∧ _
    rw [show minDate (some a) x = if dtLtb x a = true then some x else some a from rfl]
    by_cases hlt : dtLtb x a = true
    · rw [if_pos hlt]
      obtain ⟨d, hd, hmem, hle, hmin⟩ := ih x
      have hxa : dtCode x < dtCode a := by
        simpa [dtLtb, decide_eq_true_eq] using hlt
      refine ⟨d, hd, ?_, by omega, ?_⟩
      · rcases hmem with h | h
        · exact Or.inr (List.mem_cons.mpr (Or.inl h))
        · exact Or.inr (List.mem_cons.mpr (Or.inr h))
      · intro d' hd'
        rcases List.mem_cons.mp hd' with h | h
        · rw [h]; exact hle
        · exact hmin d' h
    · rw [if_neg hlt]
      obtain ⟨d, hd, hmem, hle, hmin⟩ := ih a
      have hxa : ¬(dtCode x < dtCode a) := by
        simpa [dtLtb, decide_eq_true_eq] using hlt
      refine ⟨d, hd, ?_, hle, ?_⟩
      · rcases hmem with h | h
        · exact Or.inl h
        · exact Or.inr (List.mem_cons.mpr (Or.inr h))
      · intro d' hd'
        rcases List.mem_cons.mp hd' with h | h
        · rw [h]; omega
        · exact hmin d' h

theorem foldl_minDate_from_none (ds : List UTCDate) (hne : ds ≠ []) :
    ∃ d, ds.foldl minDate none = some d ∧ d ∈ ds ∧
      ∀ d' ∈ ds, dtCode d ≤ dtCode d' := by
  match ds, hne with
  | x :: xs, _ =>
    show ∃ d, xs.foldl minDate (minDate none x) = some d ∧ _
    rw [show minDate none x = some x from rfl]
    obtain ⟨d, hd, hmem, hle, hmin⟩ := foldl_minDate_some xs x
    refine ⟨d, hd, ?_, ?_⟩
    · rcases hmem with h | h
      · rw [h]; exact List.mem_cons_self _ _
      · exact List.mem_cons.mpr (Or.inr h)
    · intro d' hd'
      rcases List.mem_cons.mp hd' with h | h
      · rw [h]; exact hle
      · exact hmin d' h

/-- **C9 (amended).** The lookup the admission pipeline calls
(`RevenueCatHelper.getSubscriptionInfo`) excludes only *expired* entries
— it performs no sandbox filtering — while
`SubscriptionHelper.getSubscriptionInfo` with `testMode = false` (which
the middleware does not call) excludes both expired and sandbox-backed
entries; in both, `subscriptionStartedAt` is the earliest purchase date
among the surviving entries and is absent exactly when none survive. -/
theorem C9_amended_lookup_filtering (data : RevenueCatSubscriberData) (now : UTCDate) :
    ((survivingSH data false now = [] →
        SubscriptionHelper.getSubscriptionInfo data false now = ⟨[NONE_ENTITLEMENT], none⟩) ∧
      (survivingSH data false now ≠ [] →
        (SubscriptionHelper.getSubscriptionInfo data false now).entitlements
          = (survivingSH data false now).map (·.1) ∧
        ∃ d, (SubscriptionHelper.getSubscriptionInfo data false now).subscriptionStartedAt = some d ∧
          d ∈ (survivingSH data false now).map (·.2.purchase_date) ∧
          ∀ d' ∈ (survivingSH data false now).map (·.2.purchase_date), dtCode d ≤ dtCode d')) ∧
    ((survivingRC data now = [] →
        RevenueCatHelper.getSubscriptionInfo data now = ⟨[NONE_ENTITLEMENT], none⟩) ∧
      (survivingRC data now ≠ [] →
        (RevenueCatHelper.getSubscriptionInfo data now).entitlements
          = (survivingRC data now).map (·.1) ∧
        ∃ d, (RevenueCatHelper.getSubscriptionInfo data now).subscriptionStartedAt = some d ∧
          d ∈ (survivingRC data now).map (·.2.purchase_date) ∧
          ∀ d' ∈ (survivingRC data now).map (·.2.purchase_date), dtCode d ≤ dtCode d')) := by
  constructor
  · have hloop := subscriptionHelperLoop_spec data.subscriptions false now
      data.entitlements [] none
    constructor
    · intro hempty
      unfold SubscriptionHelper.getSubscriptionInfo
      rw [hloop]
      unfold survivingSH at hempty
      rw [hempty]
      rfl
    · intro hne
      unfold SubscriptionHelper.getSubscriptionInfo
      rw [hloop]
      unfold survivingSH at hne ⊢
      have hne' : (data.entitlements.filter (fun ne =>
          entActive ne.2 now && !(!false && sandboxFlagged data.subscriptions ne.2))).map
            (·.2.purchase_date) ≠ [] := by
        intro hc
        exact hne (List.map_eq_nil_iff.mp hc)
      obtain ⟨d, hd, hmem, hmin⟩ := foldl_minDate_from_none _ hne'
      simp only [List.nil_append]
      have hifne : ((data.entitlements.filter (fun ne =>
          entActive ne.2 now && !(!false && sandboxFlagged data.subscriptions ne.2))).map
            (·.1)).isEmpty = false := by
        rcases hfe : data.entitlements.filter (fun ne =>
            entActive ne.2 now && !(!false && sandboxFlagged data.subscriptions ne.2)) with _ | ⟨a, as⟩
        · exact absurd hfe hne
        · rw [hfe]
          rfl
      rw [if_neg (by rw [hifne]; exact Bool.false_ne_true)]
      exact ⟨rfl, d, hd, hmem, hmin⟩
  · have hloop := revenueCatLoop_spec now data.entitlements [] none
    constructor
    · intro hempty
      unfold RevenueCatHelper.getSubscriptionInfo
      rw [hloop]
      unfold survivingRC at hempty
      rw [hempty]
      rfl
    · intro hne
      unfold RevenueCatHelper.getSubscriptionInfo
      rw [hloop]
      unfold survivingRC at hne ⊢
      have hne' : (data.entitlements.filter (fun ne => entActive ne.2 now)).map
            (·.2.purchase_date) ≠ [] := by
        intro hc
        exact hne (List.map_eq_nil_iff.mp hc)
      obtain ⟨d, hd, hmem, hmin⟩ := foldl_minDate_from_none _ hne'
      simp only [List.nil_append]
      have hifne : ((data.entitlements.filter (fun ne => entActive ne.2 now)).map
            (·.1)).isEmpty = false := by
        rcases hfe : data.entitlements.filter (fun ne => entActive ne.2 now) with _ | ⟨a, as⟩
        · exact absurd hfe hne
        · rw [hfe]
          rfl
      rw [if_neg (by rw [hifne]; exact Bool.false_ne_true)]
      exact ⟨rfl, d, hd, hmem, hmin⟩

/-- Witness for the amended C9: a sandbox-backed and an expired entry,
plus one clean entry. -/
theorem C9_amended_lookup_filtering_witness :
    ((SubscriptionHelper.getSubscriptionInfo
        ⟨[("pro", ⟨none, "p1", ⟨2025, 0, 10, 0, 0, 0, 0⟩⟩),
          ("beta", ⟨none, "p2", ⟨2025, 0, 5, 0, 0, 0, 0⟩⟩)], [("p2", ⟨true⟩)]⟩ false
        ⟨2025, 5, 15, 0, 0, 0, 0⟩).entitlements
      = (survivingSH
        ⟨[("pro", ⟨none, "p1", ⟨2025, 0, 10, 0, 0, 0, 0⟩⟩),
          ("beta", ⟨none, "p2", ⟨2025, 0, 5, 0, 0, 0, 0⟩⟩)], [("p2", ⟨true⟩)]⟩ false
        ⟨2025, 5, 15, 0, 0, 0, 0⟩).map (·.1)) ∧
    (RevenueCatHelper.getSubscriptionInfo
        ⟨[("pro", ⟨some ⟨2025, 0, 20, 0, 0, 0, 0⟩, "p1", ⟨2025, 0, 10, 0, 0, 0, 0⟩⟩)], []⟩
        ⟨2025, 5, 15, 0, 0, 0, 0⟩ = ⟨[NONE_ENTITLEMENT], none⟩) :=
  ⟨((C9_amended_lookup_filtering
      ⟨[("pro", ⟨none, "p1", ⟨2025, 0, 10, 0, 0, 0, 0⟩⟩),
        ("beta", ⟨none, "p2", ⟨2025, 0, 5, 0, 0, 0, 0⟩⟩)], [("p2", ⟨true⟩)]⟩
      ⟨2025, 5, 15, 0, 0, 0, 0⟩).1.2 (by decide)).1,
   (C9_amended_lookup_filtering
      ⟨[("pro", ⟨some ⟨2025, 0, 20, 0, 0, 0, 0⟩, "p1", ⟨2025, 0, 10, 0, 0, 0, 0⟩⟩)], []⟩
      ⟨2025, 5, 15, 0, 0, 0, 0⟩).2.1 (by decide)⟩
